import Mathlib

/-!
# Verification of the water-backend billing and payment engine

A shallow embedding, in Lean 4, of the billing core of the `water-backend`
FastAPI service:

* `app/services/billing_service.py` — draft invoice generation,
* `app/services/payment_service.py` — single-invoice payment recording,
* `app/api/routes/admin_billing.py` — confirm / cancel / void-reissue /
  monthly client payment,
* `app/api/routes/admin_master.py` — client price administration
  (`set_client_price`) and manual bill (trip) creation.

Modelling conventions:

* Monetary values are rationals (`ℚ`).  The Python code stores money in
  `Float` columns and rounds with `round(value, 2)`.  We model `round(·, 2)`
  as decimal rounding to the nearest multiple of `1/100` (`round_money`
  below).  Python's float `round` breaks exact `.xx5` ties to even; such
  exact decimal ties essentially never arise from binary floats, and no
  property below depends on the tie-break, so the embedding rounds ties
  upward (Mathlib's `round`) for clean algebra.
* Timestamps (`created_at`, `effective_from`, `due_date`) are integers,
  totally ordered; a `Clock` also carries the calendar year and month of the
  instant, standing for SQL `extract('year'|'month', created_at)`.
* SQLAlchemy tables are Lean lists in insertion order; autoincrement ids are
  explicit counters on the database state.
* Each route/service function becomes a function `DB → args → DB × Except E A`.
  In every error case the Python code raises before its first mutation
  (mid-sequence failures roll back), so an error result is paired with the
  unchanged input state.
* Python string normalisation `.strip().upper()` is embedded directly
  (ASCII `upper`, Python whitespace `strip`), rather than through Lean's
  built-in `String.toUpper`, mirroring `str` semantics for the method names
  that occur.
-/

/-! ## Decimal money arithmetic -/

/-- Floor of a rational, computably (`Int` division by the positive
denominator). -/
def floorQ (q : ℚ) : ℤ := q.num / (q.den : ℤ)

theorem floorQ_eq_floor (q : ℚ) : floorQ q = ⌊q⌋ := Rat.floor_def.symm

/-- Round to the nearest integer (ties upward); computable companion of
Mathlib's `round`. -/
def roundQ (q : ℚ) : ℤ := floorQ (q + 1/2)

theorem roundQ_eq_round (q : ℚ) : roundQ q = round q := by
  rw [roundQ, floorQ_eq_floor, round_eq]

/-- Source: `_round_money` of `payment_service.py` and `_to_money` of
`admin_billing.py`: `round(float(value or 0), 2)`, i.e. rounding to a whole
number of cents. -/
def round_money (value : ℚ) : ℚ := (roundQ (value * 100) : ℚ) / 100

/-- Source: `_to_money` of `admin_billing.py` — the same function as `_round_money`. -/
def to_money (value : ℚ) : ℚ := round_money value

/-- A rational is *cent-valued* when it is an integer number of cents. -/
def IsCent (q : ℚ) : Prop := ∃ n : ℤ, q = (n : ℤ) / 100

theorem isCent_round_money (q : ℚ) : IsCent (round_money q) :=
  ⟨roundQ (q * 100), rfl⟩

theorem isCent_zero : IsCent 0 := ⟨0, by norm_num⟩

theorem isCent_intCast (n : ℤ) : IsCent (n : ℚ) :=
  ⟨100 * n, by push_cast; ring⟩

theorem IsCent.add {a b : ℚ} (ha : IsCent a) (hb : IsCent b) : IsCent (a + b) := by
  obtain ⟨m, rfl⟩ := ha
  obtain ⟨n, rfl⟩ := hb
  exact ⟨m + n, by push_cast; ring⟩

theorem IsCent.neg {a : ℚ} (ha : IsCent a) : IsCent (-a) := by
  obtain ⟨m, rfl⟩ := ha
  exact ⟨-m, by push_cast; ring⟩

theorem IsCent.sub {a b : ℚ} (ha : IsCent a) (hb : IsCent b) : IsCent (a - b) := by
  rw [sub_eq_add_neg]
  exact ha.add hb.neg

theorem round_money_of_isCent {q : ℚ} (h : IsCent q) : round_money q = q := by
  obtain ⟨n, rfl⟩ := h
  have h100 : ((n : ℚ) / 100) * 100 = (n : ℚ) := by
    field_simp
  rw [round_money, h100, roundQ_eq_round]
  norm_num [round_intCast]

theorem round_money_add_cent (q : ℚ) {c : ℚ} (hc : IsCent c) :
    round_money (q + c) = round_money q + c := by
  obtain ⟨n, rfl⟩ := hc
  have hexp : (q + (n : ℚ) / 100) * 100 = q * 100 + (n : ℚ) := by
    field_simp
  rw [round_money, hexp, round_money, roundQ_eq_round, roundQ_eq_round, round_add_int]
  push_cast
  ring

theorem round_money_sub_cent (q : ℚ) {c : ℚ} (hc : IsCent c) :
    round_money (q - c) = round_money q - c := by
  rw [sub_eq_add_neg, round_money_add_cent q hc.neg, sub_eq_add_neg]

/-! ## Python string normalisation -/

/-- ASCII upper-casing of one character, as Python's `str.upper` acts on the
ASCII range (the only characters relevant to payment-method strings). -/
def upChar (c : Char) : Char :=
  if 'a' ≤ c ∧ c ≤ 'z' then Char.ofNat (c.toNat - 32) else c

/-- Python `str.upper`. -/
def upperStr (s : String) : String := ⟨s.data.map upChar⟩

/-- Python `str.strip`'s whitespace set. -/
def pySpace (c : Char) : Bool :=
  c = ' ' ∨ c = '\t' ∨ c = '\n' ∨ c = '\x0b' ∨ c = '\x0c' ∨ c = '\r'

/-- Python `str.strip`. -/
def stripStr (s : String) : String :=
  ⟨((s.data.dropWhile pySpace).reverse.dropWhile pySpace).reverse⟩

/-- Source: `(method or "").strip().upper()`. -/
def normMethod (s : String) : String := upperStr (stripStr s)

/-- Source: `(upi_account or "").strip() or None`: strip, and collapse an empty
result to `None`. -/
def norm_opt_str (s : Option String) : Option String :=
  let t := stripStr (s.getD "")
  if t = "" then none else some t

/-! ## Data model (`app/models/*.py`) -/

/-- Source: `ClientContainerPrice` (`app/models/client_price.py`): one effective-dated
price entry for a (client, container) pair. -/
structure ClientContainerPrice where
  client_id : Nat
  container_id : Nat
  price : ℚ
  effective_from : Int
deriving DecidableEq

/-- Source: `Trip` (`app/models/trip.py`); `invoice_id` is the nullable invoice link
("unbilled" when `none`).  The driver id plays no role in billing and is
omitted. -/
structure Trip where
  id : Nat
  client_id : Nat
  invoice_id : Option Nat
deriving DecidableEq

/-- Source: `TripContainer` (`app/models/trip_container.py`): one delivery line of a
trip. -/
structure TripContainer where
  trip_id : Nat
  container_id : Nat
  delivered_qty : Int
  returned_qty : Int
deriving DecidableEq

/-- Source: `Invoice` (`app/models/invoice.py`).  `status` is the free-form string
column ("draft", "pending", "partial", "paid", "cancelled").  `created_year`
and `created_month` are the calendar components of `created_at`, standing for
SQL `extract` on the datetime column. -/
structure Invoice where
  id : Nat
  client_id : Nat
  total_amount : ℚ
  amount_paid : ℚ
  status : String
  created_at : Int
  created_year : Int
  created_month : Int
  confirmed_at : Option Int
  due_date : Option Int
deriving DecidableEq

/-- Source: `InvoiceItem` (`app/models/invoice_item.py`). -/
structure InvoiceItem where
  invoice_id : Nat
  container_id : Nat
  quantity : Int
  price_snapshot : ℚ
  total : ℚ
deriving DecidableEq

/-- Source: `Payment`.  The split columns (`method`, `cash_amount`, `upi_amount`,
`upi_account`) are the ones written by `payment_service.record_payment` and
added to the `payments` table by migration `9a7d2c6e1b4f`; they match the
spec's Payment data model (the checked-in ORM class file lags behind that
migration). -/
structure Payment where
  invoice_id : Nat
  amount : ℚ
  method : String
  cash_amount : ℚ
  upi_amount : ℚ
  upi_account : Option String
  created_at : Int
deriving DecidableEq

/-- The database state: each table as a list in insertion order, plus the
autoincrement counters. -/
structure DB where
  prices : List ClientContainerPrice
  trips : List Trip
  trip_containers : List TripContainer
  invoices : List Invoice
  invoice_items : List InvoiceItem
  payments : List Payment
  next_invoice_id : Nat
  next_trip_id : Nat
deriving DecidableEq

/-- The empty database. -/
def DB.empty : DB :=
  { prices := [], trips := [], trip_containers := [], invoices := [],
    invoice_items := [], payments := [], next_invoice_id := 1, next_trip_id := 1 }

/-- A clock instant together with the calendar year/month it falls in
(`datetime.utcnow()` plus what SQL `extract` would read off it). -/
structure Clock where
  t : Int
  year : Int
  month : Int
deriving DecidableEq

/-! ## PriceLedger -/

/-- The later of two price entries by `effective_from` (first argument wins
ties, matching `ORDER BY effective_from DESC` + `first()` on a list kept in
insertion order). -/
def later_price (a b : ClientContainerPrice) : ClientContainerPrice :=
  if a.effective_from < b.effective_from then b else a

/-- Source: `ORDER BY effective_from DESC` then `.first()` over a list of entries. -/
def latest_of : List ClientContainerPrice → Option ClientContainerPrice
  | [] => none
  | p :: ps =>
    match latest_of ps with
    | none => some p
    | some q => some (later_price p q)

/-- The price rows of one (client, container) pair, in insertion order. -/
def pair_prices (db : DB) (client_id container_id : Nat) : List ClientContainerPrice :=
  db.prices.filter (fun p => p.client_id == client_id && p.container_id == container_id)

/-- The price query shared by `generate_draft_invoice` and
`void_reissue_invoice`: all entries of the pair, ordered by `effective_from`
descending, first row — i.e. the entry with the greatest `effective_from`,
with **no** condition comparing `effective_from` to the current time. -/
def latest_price (db : DB) (client_id container_id : Nat) : Option ClientContainerPrice :=
  latest_of (pair_prices db client_id container_id)

/-- Errors of `set_client_price` (`admin_master.py`), by detail string:
"A price already exists for this effective date." /
"New price must have a later effective date than current price." -/
inductive PriceError where
  | duplicate_effective_date
  | must_be_later_than_current
deriving DecidableEq

/-- Source: `set_client_price` (`admin_master.py`): insert a price entry for a
(client, container) pair, defaulting `effective_from` to now, refusing
duplicate effective dates and backdating. -/
def set_client_price (db : DB) (client_id container_id : Nat) (price : ℚ)
    (effective_from : Option Int) (now : Int) : DB × Except PriceError Unit :=
  let new_effective_date := effective_from.getD now
  let existing_prices := pair_prices db client_id container_id
  if existing_prices.any (fun p => p.effective_from == new_effective_date) then
    (db, .error .duplicate_effective_date)
  else
    let go : DB × Except PriceError Unit :=
      let new_price : ClientContainerPrice :=
        { client_id, container_id, price, effective_from := new_effective_date }
      ({ db with prices := db.prices ++ [new_price] }, .ok ())
    match latest_of existing_prices with
    | some latest_entry =>
      if new_effective_date ≤ latest_entry.effective_from then
        (db, .error .must_be_later_than_current)
      else go
    | none => go

/-! ## InvoicingEngine (`billing_service.generate_draft_invoice`) -/

/-- Errors of `generate_draft_invoice`, by detail string:
"No billable deliveries found for this client" /
"Price not set for container ID {id}". -/
inductive BillingError where
  | no_billable_deliveries
  | price_not_set (container_id : Nat)
deriving DecidableEq

/-- Whether a `TripContainer` row joins to a trip of this client that has no
invoice link (`JOIN trips ... WHERE client_id = ? AND invoice_id IS NULL`). -/
def joins_unbilled (db : DB) (client_id : Nat) (tc : TripContainer) : Bool :=
  match db.trips.find? (fun t => t.id == tc.trip_id) with
  | some t => t.client_id == client_id && t.invoice_id.isNone
  | none => false

/-- Source: `GROUP BY container_id` accumulation: add one delivered quantity into an
association list keyed by container id (first-seen key order). -/
def add_qty : List (Nat × Int) → Nat → Int → List (Nat × Int)
  | [], c, q => [(c, q)]
  | (c', q') :: rest, c, q =>
    if c' = c then (c', q' + q) :: rest else (c', q') :: add_qty rest c q

/-- Source: `SUM(delivered_qty) GROUP BY container_id` over the client's unbilled
delivery lines (step 1 of `generate_draft_invoice`; `returned_qty` is
ignored). -/
def aggregate_delivered (db : DB) (client_id : Nat) : List (Nat × Int) :=
  (db.trip_containers.filter (joins_unbilled db client_id)).foldl
    (fun acc tc => add_qty acc tc.container_id tc.delivered_qty) []

/-- The `trip_data` list after the "remove zero or null quantities" filter:
`row.total_qty and row.total_qty > 0`. -/
def billable_rows (db : DB) (client_id : Nat) : List (Nat × Int) :=
  (aggregate_delivered db client_id).filter (fun r => 0 < r.2)

/-- The price-validation pass and line-item construction of
`generate_draft_invoice`: for each aggregated row, resolve the pair's latest
price entry (failing with `price_not_set` on the first row without any
entry), and build the `InvoiceItem` with
`total = quantity * price` (no rounding in the source). -/
def resolve_items (db : DB) (client_id invoice_id : Nat) :
    List (Nat × Int) → Except BillingError (List InvoiceItem)
  | [] => .ok []
  | (cid, qty) :: rest =>
    match latest_price db client_id cid with
    | none => .error (.price_not_set cid)
    | some p =>
      match resolve_items db client_id invoice_id rest with
      | .error e => .error e
      | .ok items =>
        .ok ({ invoice_id, container_id := cid, quantity := qty,
               price_snapshot := p.price, total := (qty : ℚ) * p.price } :: items)

/-- Source: `generate_draft_invoice(client_id, db)` (`billing_service.py`):
aggregate unbilled deliveries, validate pricing before creating anything,
create the draft invoice and its line items (accumulating `total_amount`
unrounded), then re-query all still-unlinked trips of the client and link
them to the new invoice.  On error nothing has been persisted. -/
def generate_draft_invoice (db : DB) (client_id : Nat) (clock : Clock) :
    DB × Except BillingError Nat :=
  let trip_data := billable_rows db client_id
  if trip_data.isEmpty then (db, .error .no_billable_deliveries)
  else
    match resolve_items db client_id db.next_invoice_id trip_data with
    | .error e => (db, .error e)
    | .ok items =>
      let total_invoice_amount := (items.map (fun it => it.total)).sum
      let invoice : Invoice :=
        { id := db.next_invoice_id, client_id,
          total_amount := total_invoice_amount, amount_paid := 0,
          status := "draft", created_at := clock.t,
          created_year := clock.year, created_month := clock.month,
          confirmed_at := none, due_date := none }
      let trips := db.trips.map (fun t =>
        if t.client_id == client_id && t.invoice_id.isNone
        then { t with invoice_id := some invoice.id } else t)
      ({ db with invoices := db.invoices ++ [invoice],
                 invoice_items := db.invoice_items ++ items,
                 trips := trips,
                 next_invoice_id := db.next_invoice_id + 1 },
       .ok invoice.id)

/-! ## PaymentAllocator (`payment_service.record_payment`) -/

/-- Source: `ALLOWED_METHODS` (`payment_service.py`). -/
def ALLOWED_METHODS : List String := ["CASH", "UPI", "CASH_UPI"]

/-- Errors of `record_payment`, by detail string:
"Invoice not found" / "Confirm invoice first" / "Invoice already paid" /
"Invalid payment amount" / "Payment exceeds remaining balance" /
"Invalid payment method. Use CASH, UPI, or CASH_UPI" /
"UPI account is required for UPI payments" /
"Both cash and UPI amounts are required for CASH_UPI payments" /
"Cash + UPI split must equal total payment amount" /
"UPI account is required when UPI amount is used". -/
inductive PaymentError where
  | invoice_not_found
  | confirm_invoice_first
  | invoice_already_paid
  | invalid_payment_amount
  | exceeds_remaining_balance
  | invalid_payment_method
  | upi_account_required
  | both_amounts_required
  | split_mismatch
  | upi_account_required_for_split
deriving DecidableEq

/-- The method-specific split validation of `record_payment` (everything
between the method check and the `Payment(...)` construction), returning the
validated `(normalized_cash, normalized_upi)` pair. -/
def validate_split (method : String) (amount : ℚ) (cash_amount upi_amount : Option ℚ)
    (normalized_upi_account : Option String) : Except PaymentError (ℚ × ℚ) :=
  if method = "CASH" then .ok (amount, 0)
  else if method = "UPI" then
    if normalized_upi_account = none then .error .upi_account_required
    else .ok (0, amount)
  else
    let normalized_cash := round_money (cash_amount.getD 0)
    let normalized_upi := round_money (upi_amount.getD 0)
    if normalized_cash ≤ 0 ∨ normalized_upi ≤ 0 then .error .both_amounts_required
    else if round_money (normalized_cash + normalized_upi) ≠ amount then .error .split_mismatch
    else if normalized_upi_account = none then .error .upi_account_required_for_split
    else .ok (normalized_cash, normalized_upi)

/-- Source: `record_payment(invoice_id, amount, db, method, cash_amount, upi_amount,
upi_account)` (`payment_service.py`).  Note the exact signature: there is
**no** `allow_zero_split` parameter.  Status checks reject only "draft" and
"paid"; on success a `Payment` row is appended, `amount_paid` becomes
`round2(amount_paid + amount)` and the status is recomputed against
`round2(total_amount)`.  Every error exit precedes the first mutation, so an
error is paired with the unchanged state. -/
def record_payment (db : DB) (invoice_id : Nat) (amount0 : ℚ) (method0 : String)
    (cash_amount upi_amount : Option ℚ) (upi_account : Option String) (now : Int) :
    DB × Except PaymentError String :=
  match db.invoices.find? (fun i => i.id == invoice_id) with
  | none => (db, .error .invoice_not_found)
  | some invoice =>
    if invoice.status = "draft" then (db, .error .confirm_invoice_first)
    else if invoice.status = "paid" then (db, .error .invoice_already_paid)
    else
      let remaining := round_money (invoice.total_amount - invoice.amount_paid)
      let amount := round_money amount0
      if amount ≤ 0 then (db, .error .invalid_payment_amount)
      else if remaining < amount then (db, .error .exceeds_remaining_balance)
      else
        let method := normMethod method0
        if method ∉ ALLOWED_METHODS then (db, .error .invalid_payment_method)
        else
          let normalized_upi_account := norm_opt_str upi_account
          match validate_split method amount cash_amount upi_amount normalized_upi_account with
          | .error e => (db, .error e)
          | .ok (normalized_cash, normalized_upi) =>
            let payment : Payment :=
              { invoice_id := invoice.id, amount, method,
                cash_amount := normalized_cash, upi_amount := normalized_upi,
                upi_account := normalized_upi_account, created_at := now }
            let new_paid := round_money (invoice.amount_paid + amount)
            let new_status :=
              if round_money invoice.total_amount ≤ new_paid then "paid"
              else if 0 < new_paid then "partial"
              else "pending"
            let invoices := db.invoices.map (fun i =>
              if i.id == invoice.id
              then { i with amount_paid := new_paid, status := new_status } else i)
            ({ db with invoices := invoices, payments := db.payments ++ [payment] },
             .ok new_status)

/-! ## InvoiceLifecycle and VoidReissueEngine (`admin_billing.py`) -/

/-- Errors of the confirm / cancel / void-reissue handlers, by detail string:
"Invoice not found" / "Invoice already processed" /
"Only draft or pending invoices can be cancelled" (resp. "... voided and
reissued") / "Cannot cancel invoice with recorded payments" (resp. "Cannot
void and reissue ...") / "Cannot reissue invoice without line items". -/
inductive LifecycleError where
  | invoice_not_found
  | already_processed
  | only_draft_or_pending
  | has_recorded_payments
  | no_line_items
deriving DecidableEq

/-- Source: `confirm_invoice` (`admin_billing.py`): `draft → pending`, stamping
`confirmed_at = now` and `due_date = now + 7 days` (the day length is left
abstract in the integer clock; nothing below depends on it). -/
def confirm_invoice (db : DB) (invoice_id : Nat) (clock : Clock) :
    DB × Except LifecycleError Unit :=
  match db.invoices.find? (fun i => i.id == invoice_id) with
  | none => (db, .error .invoice_not_found)
  | some invoice =>
    if invoice.status ≠ "draft" then (db, .error .already_processed)
    else
      let invoices := db.invoices.map (fun i =>
        if i.id == invoice.id
        then { i with status := "pending", confirmed_at := some clock.t,
                      due_date := some (clock.t + 7) }
        else i)
      ({ db with invoices := invoices }, .ok ())

/-- Source: `cancel_invoice` (`admin_billing.py`): `draft`/`pending` only, and only
with no recorded payments (`invoice.amount_paid and invoice.amount_paid > 0`
collapses to `amount_paid > 0`); sets status "cancelled".  The cancellation
reason is only logged, so it is not a parameter here. -/
def cancel_invoice (db : DB) (invoice_id : Nat) :
    DB × Except LifecycleError Unit :=
  match db.invoices.find? (fun i => i.id == invoice_id) with
  | none => (db, .error .invoice_not_found)
  | some invoice =>
    if ¬ (invoice.status = "draft" ∨ invoice.status = "pending") then
      (db, .error .only_draft_or_pending)
    else if 0 < invoice.amount_paid then (db, .error .has_recorded_payments)
    else
      let invoices := db.invoices.map (fun i =>
        if i.id == invoice.id then { i with status := "cancelled" } else i)
      ({ db with invoices := invoices }, .ok ())

/-- Source: `void_reissue_invoice` (`admin_billing.py`): cancel the old invoice and
create a sibling draft re-priced at each container's latest ledger entry,
falling back to the old `price_snapshot` when the pair has no entry at all;
copy quantities, re-link the old invoice's trips to the new invoice.  All of
it one atomic unit (the `try/rollback` in the source). -/
def void_reissue_invoice (db : DB) (invoice_id : Nat) (clock : Clock) :
    DB × Except LifecycleError Nat :=
  match db.invoices.find? (fun i => i.id == invoice_id) with
  | none => (db, .error .invoice_not_found)
  | some invoice =>
    if ¬ (invoice.status = "draft" ∨ invoice.status = "pending") then
      (db, .error .only_draft_or_pending)
    else if 0 < invoice.amount_paid then (db, .error .has_recorded_payments)
    else
      let old_items := db.invoice_items.filter (fun it => it.invoice_id == invoice.id)
      if old_items.isEmpty then (db, .error .no_line_items)
      else
        let new_id := db.next_invoice_id
        let new_items := old_items.map (fun item =>
          let effective_price :=
            match latest_price db invoice.client_id item.container_id with
            | some p => p.price
            | none => item.price_snapshot
          { invoice_id := new_id, container_id := item.container_id,
            quantity := item.quantity, price_snapshot := effective_price,
            total := (item.quantity : ℚ) * effective_price : InvoiceItem })
        let new_total := (new_items.map (fun it => it.total)).sum
        let new_invoice : Invoice :=
          { id := new_id, client_id := invoice.client_id,
            total_amount := new_total, amount_paid := 0, status := "draft",
            created_at := clock.t, created_year := clock.year,
            created_month := clock.month, confirmed_at := none, due_date := none }
        let trips := db.trips.map (fun t =>
          if t.invoice_id == some invoice.id
          then { t with invoice_id := some new_id } else t)
        let invoices := (db.invoices.map (fun i =>
          if i.id == invoice.id then { i with status := "cancelled" } else i)) ++ [new_invoice]
        ({ db with invoices := invoices,
                   invoice_items := db.invoice_items ++ new_items,
                   trips := trips,
                   next_invoice_id := new_id + 1 },
         .ok new_id)

/-! ## Trip ingestion (`admin_master.create_missing_bill`) -/

/-- One container line of a manual bill. -/
structure TripLine where
  container_id : Nat
  delivered_qty : Int
  returned_qty : Int
deriving DecidableEq

/-- Errors of `create_missing_bill`, by detail string:
"Quantities cannot be negative" / "At least one container quantity is
required". -/
inductive TripError where
  | negative_quantities
  | no_container_quantity
deriving DecidableEq

/-- Source: `create_missing_bill` (`admin_master.py`), reduced to its billing-relevant
core: create a trip with one `TripContainer` row per non-(0,0) line, rejecting
negative quantities, requiring at least one kept line; the new trip has no
invoice link.  (Client/driver existence checks and audit logging omitted;
`driver.create_trip` is the same shape.) -/
def create_missing_bill (db : DB) (client_id : Nat) (lines : List TripLine) :
    DB × Except TripError Nat :=
  if lines.any (fun l => decide (l.delivered_qty < 0) || decide (l.returned_qty < 0)) then
    (db, .error .negative_quantities)
  else
    let kept := lines.filter (fun l => !(l.delivered_qty == 0 && l.returned_qty == 0))
    if kept.isEmpty then (db, .error .no_container_quantity)
    else
      let trip : Trip := { id := db.next_trip_id, client_id, invoice_id := none }
      let tcs := kept.map (fun l =>
        { trip_id := trip.id, container_id := l.container_id,
          delivered_qty := l.delivered_qty, returned_qty := l.returned_qty : TripContainer })
      ({ db with trips := db.trips ++ [trip],
                 trip_containers := db.trip_containers ++ tcs,
                 next_trip_id := db.next_trip_id + 1 },
       .ok trip.id)

/-! ## MonthlyPaymentAllocator (`admin_billing.record_monthly_client_payment`) -/

/-- Source: `ORDER BY created_at ASC, id ASC` as a Bool preorder on invoices. -/
def invoice_order (a b : Invoice) : Bool :=
  decide (a.created_at < b.created_at) ||
    (a.created_at == b.created_at && decide (a.id ≤ b.id))

/-- Insertion sort by `invoice_order` (stable, like the SQL order-by). -/
def insert_sorted (a : Invoice) : List Invoice → List Invoice
  | [] => [a]
  | b :: bs => if invoice_order a b then a :: b :: bs else b :: insert_sorted a bs

/-- Sort a list of invoices by `(created_at, id)`. -/
def sort_invoices : List Invoice → List Invoice
  | [] => []
  | a :: as' => insert_sorted a (sort_invoices as')

/-- Source: `MonthlyPaymentRequest` (`admin_billing.py`): the pydantic payload.
(Pydantic additionally enforces `amount > 0` and a method literal at the API
boundary; the handler re-validates the method itself.) -/
structure MonthlyPaymentRequest where
  client_id : Nat
  year : Int
  month : Int
  amount : ℚ
  method : String
  cash_amount : Option ℚ
  upi_amount : Option ℚ
  upi_account : Option String
deriving DecidableEq

/-- Errors of `record_monthly_client_payment`, by detail string:
"No pending monthly invoices found for this client" (404) /
"No outstanding amount left for selected month" /
"Payment exceeds selected month outstanding amount" /
"UPI account is required" /
"Cash and UPI amounts are required for CASH_UPI" /
"Cash + UPI must equal total monthly payment amount" /
"Invalid payment method. Use CASH, UPI, or CASH_UPI" /
"Monthly payment allocation failed. Please retry." (500) —
plus `delegation_type_error`: the allocation loop calls
`record_payment(..., allow_zero_split=True)`, but `record_payment`
(`payment_service.py`) declares no such parameter, so Python raises
`TypeError: record_payment() got an unexpected keyword argument
'allow_zero_split'` at the first delegation, before any state change. -/
inductive MonthlyError where
  | no_pending_monthly_invoices
  | no_outstanding_amount
  | exceeds_month_outstanding
  | upi_account_required
  | cash_and_upi_required
  | split_must_equal_total
  | invalid_payment_method
  | allocation_failed
  | delegation_type_error
deriving DecidableEq

/-- Result payload of a successful monthly payment. -/
structure MonthlyResult where
  applied : List (Nat × ℚ)
  remaining_month_outstanding : ℚ
deriving DecidableEq

/-- The overall split validation of `record_monthly_client_payment`
(step "CASH"/"UPI"/"CASH_UPI"/else on the *total* requested amount),
returning `(total_cash_component, total_upi_component)`. -/
def validate_monthly_split (payment_method : String) (payment_amount : ℚ)
    (cash_amount upi_amount : Option ℚ) (normalized_upi_account : Option String) :
    Except MonthlyError (ℚ × ℚ) :=
  if payment_method = "CASH" then .ok (payment_amount, 0)
  else if payment_method = "UPI" then
    if normalized_upi_account = none then .error .upi_account_required
    else .ok (0, payment_amount)
  else if payment_method = "CASH_UPI" then
    if normalized_upi_account = none then .error .upi_account_required
    else
      let total_cash_component := to_money (cash_amount.getD 0)
      let total_upi_component := to_money (upi_amount.getD 0)
      if total_cash_component ≤ 0 ∨ total_upi_component ≤ 0 then
        .error .cash_and_upi_required
      else if to_money (total_cash_component + total_upi_component) ≠ payment_amount then
        .error .split_must_equal_total
      else .ok (total_cash_component, total_upi_component)
  else .error .invalid_payment_method

/-- Source: `record_monthly_client_payment` (`admin_billing.py`): select the client's
pending/partial/overdue invoices of the given calendar month (by stored
status; "overdue" is never a stored status in this codebase), compute
per-invoice remaining balances and the month's outstanding total, validate
amount and overall split, then walk the invoices applying
`min(invoice_remaining, remaining_amount)` each — delegating each state
update to `record_payment` with `allow_zero_split=True`.

Since `record_payment` has no `allow_zero_split` parameter, that delegation
raises `TypeError`.  The loop body runs (and hence the call is reached)
exactly when `remaining_amount > 0` at the first iteration, i.e. when
`payment_amount > 0`; with `payment_amount ≤ 0` (a positive sub-cent request
rounds to `0.0`) the loop breaks immediately and the handler "succeeds"
having applied nothing.  No state is ever mutated either way. -/
def record_monthly_client_payment (db : DB) (payload : MonthlyPaymentRequest) :
    DB × Except MonthlyError MonthlyResult :=
  let payment_amount := to_money payload.amount
  let payment_method := normMethod payload.method
  let invoices := sort_invoices (db.invoices.filter (fun i =>
    i.client_id == payload.client_id &&
    i.created_year == payload.year && i.created_month == payload.month &&
    (i.status == "pending" || i.status == "partial" || i.status == "overdue")))
  if invoices.isEmpty then (db, .error .no_pending_monthly_invoices)
  else
    let invoice_remaining : List (Nat × ℚ) := invoices.filterMap (fun i =>
      let remaining := to_money (i.total_amount - i.amount_paid)
      if remaining ≤ 0 then none else some (i.id, remaining))
    let monthly_outstanding := invoice_remaining.foldl (fun acc r => to_money (acc + r.2)) 0
    if monthly_outstanding ≤ 0 then (db, .error .no_outstanding_amount)
    else if monthly_outstanding < payment_amount then (db, .error .exceeds_month_outstanding)
    else
      let normalized_upi_account := norm_opt_str payload.upi_account
      match validate_monthly_split payment_method payment_amount
          payload.cash_amount payload.upi_amount normalized_upi_account with
      | .error e => (db, .error e)
      | .ok _components =>
        if payment_amount ≤ 0 then
          (db, .ok { applied := [],
                     remaining_month_outstanding := to_money (monthly_outstanding - payment_amount) })
        else (db, .error .delegation_type_error)

/-! ## Reachable states -/

/-- All database states reachable from the empty database through the
embedded operations, with any arguments; a failing call leaves the state
unchanged, so failures are included uniformly via the first projection. -/
inductive Reachable : DB → Prop where
  | empty : Reachable DB.empty
  | set_price (db : DB) (c k : Nat) (p : ℚ) (eff : Option Int) (now : Int) :
      Reachable db → Reachable (set_client_price db c k p eff now).1
  | add_bill (db : DB) (c : Nat) (lines : List TripLine) :
      Reachable db → Reachable (create_missing_bill db c lines).1
  | generate (db : DB) (c : Nat) (clock : Clock) :
      Reachable db → Reachable (generate_draft_invoice db c clock).1
  | confirm (db : DB) (i : Nat) (clock : Clock) :
      Reachable db → Reachable (confirm_invoice db i clock).1
  | cancel (db : DB) (i : Nat) :
      Reachable db → Reachable (cancel_invoice db i).1
  | void_reissue (db : DB) (i : Nat) (clock : Clock) :
      Reachable db → Reachable (void_reissue_invoice db i clock).1
  | pay (db : DB) (i : Nat) (a : ℚ) (m : String) (ca ua : Option ℚ)
      (acc : Option String) (now : Int) :
      Reachable db → Reachable (record_payment db i a m ca ua acc now).1
  | pay_month (db : DB) (payload : MonthlyPaymentRequest) :
      Reachable db → Reachable (record_monthly_client_payment db payload).1

deriving instance DecidableEq for Except

/-! ## A concrete scenario (sanity checks of the embedding) -/

/-- A fixed clock: instant 0 in March 2025. -/
def clock0 : Clock := ⟨0, 2025, 3⟩

/-- Client 1 gets price 10 for container 1, effective from instant 0. -/
def dbA1 : DB := (set_client_price DB.empty 1 1 10 none 0).1

/-- A manual bill: trip for client 1 delivering 5 of container 1. -/
def dbA2 : DB := (create_missing_bill dbA1 1 [⟨1, 5, 0⟩]).1

/-- Draft invoice generated for client 1 at instant 1. -/
def dbA3 : DB := (generate_draft_invoice dbA2 1 ⟨1, 2025, 3⟩).1

/-- The draft confirmed at instant 2. -/
def dbA4 : DB := (confirm_invoice dbA3 1 ⟨2, 2025, 3⟩).1

unseal Rat.add Rat.sub Rat.mul Rat.inv in
example : (set_client_price DB.empty 1 1 10 none 0).2 = .ok () := by decide

unseal Rat.add Rat.sub Rat.mul Rat.inv in
example : (generate_draft_invoice dbA2 1 ⟨1, 2025, 3⟩).2 = .ok 1 := by decide

unseal Rat.add Rat.sub Rat.mul Rat.inv in
example : dbA3.invoices =
    [{ id := 1, client_id := 1, total_amount := 50, amount_paid := 0,
       status := "draft", created_at := 1, created_year := 2025,
       created_month := 3, confirmed_at := none, due_date := none }] := by decide

unseal Rat.add Rat.sub Rat.mul Rat.inv in
example : dbA3.invoice_items =
    [{ invoice_id := 1, container_id := 1, quantity := 5,
       price_snapshot := 10, total := 50 }] := by decide

unseal Rat.add Rat.sub Rat.mul Rat.inv in
example : dbA3.trips = [{ id := 1, client_id := 1, invoice_id := some 1 }] := by decide

unseal Rat.add Rat.sub Rat.mul Rat.inv in
example : (record_payment dbA4 1 20 " cash " none none none 5).2 = .ok "partial" := by decide

unseal Rat.add Rat.sub Rat.mul Rat.inv in
example : (record_payment dbA4 1 50 "CASH" none none none 5).2 = .ok "paid" := by decide

unseal Rat.add Rat.sub Rat.mul Rat.inv in
example : (record_payment dbA4 1 60 "CASH" none none none 5).2 =
    .error .exceeds_remaining_balance := by decide

unseal Rat.add Rat.sub Rat.mul Rat.inv in
example :
    (record_payment dbA4 1 50 "CASH_UPI" (some 20) (some 30) (some "acc") 5).2 =
      .ok "paid" := by decide

unseal Rat.add Rat.sub Rat.mul Rat.inv in
example :
    (record_payment dbA4 1 50 "CASH_UPI" (some 20) (some 25) (some "acc") 5).2 =
      .error .split_mismatch := by decide

unseal Rat.add Rat.sub Rat.mul Rat.inv in
example :
    (record_monthly_client_payment dbA4
      { client_id := 1, year := 2025, month := 3, amount := 30, method := "CASH",
        cash_amount := none, upi_amount := none, upi_account := none }).2 =
      .error .delegation_type_error := by decide

/-! ## Further concrete scenarios used by the claims -/

/-- Scenario C: the pending invoice of scenario A, then cancelled. -/
def dbC3 : DB := (cancel_invoice dbA4 1).1

/-- Scenario F: the only price entry for (client 1, container 1) is
future-dated (`effective_from = 100`), and one unbilled trip delivers 2. -/
def dbF1 : DB := (set_client_price DB.empty 1 1 10 (some 100) 0).1

/-- Scenario F, with the delivery recorded. -/
def dbF2 : DB := (create_missing_bill dbF1 1 [⟨1, 2, 0⟩]).1

/-- Scenario B: price `10.0004` (not a whole number of cents — the price
endpoint accepts any float), so ten units bill to `100.004`. -/
def dbB1 : DB := (set_client_price DB.empty 1 1 (25001/2500) none 0).1

/-- Scenario B: ten units delivered. -/
def dbB2 : DB := (create_missing_bill dbB1 1 [⟨1, 10, 0⟩]).1

/-- Scenario B: draft invoice with `total_amount = 100.004`. -/
def dbB3 : DB := (generate_draft_invoice dbB2 1 ⟨1, 2025, 3⟩).1

/-- Scenario B: the invoice confirmed. -/
def dbB4 : DB := (confirm_invoice dbB3 1 ⟨2, 2025, 3⟩).1

/-- Scenario E: price `9.9999`, so ten units bill to `99.999`, which rounds
*up* to a remaining balance of `100.00`. -/
def dbE1 : DB := (set_client_price DB.empty 1 1 (99999/10000) none 0).1

/-- Scenario E: ten units delivered. -/
def dbE2 : DB := (create_missing_bill dbE1 1 [⟨1, 10, 0⟩]).1

/-- Scenario E: draft invoice with `total_amount = 99.999`. -/
def dbE3 : DB := (generate_draft_invoice dbE2 1 ⟨1, 2025, 3⟩).1

/-- Scenario E: the invoice confirmed. -/
def dbE4 : DB := (confirm_invoice dbE3 1 ⟨2, 2025, 3⟩).1

/-- Scenario E: `100.00` paid against the `99.999` invoice — accepted, since
the remaining balance is computed as `round2(99.999 - 0) = 100.00`. -/
def dbE5 : DB := (record_payment dbE4 1 100 "CASH" none none none 3).1

/-! ## C2 -/

/-- A concrete, fully valid monthly payment request against scenario A:
client 1 owes `50.00` on its single pending March-2025 invoice and pays
`30.00` in cash. -/
def payloadC2 : MonthlyPaymentRequest :=
  { client_id := 1, year := 2025, month := 3, amount := 30, method := "CASH",
    cash_amount := none, upi_amount := none, upi_account := none }

unseal Rat.add Rat.sub Rat.mul Rat.inv in
/-- C2 (code bug).  The claim says a valid monthly payment (positive amount, valid
split, within the month's outstanding) succeeds with conserved per-invoice
allocations.  In the code, `record_monthly_client_payment` delegates with
`record_payment(..., allow_zero_split=True)`, but `record_payment`
(`payment_service.py`) has no `allow_zero_split` parameter, so Python raises
`TypeError` at the first delegation and no monthly payment with a positive
rounded amount can ever succeed.  Concretely: one pending invoice with
`50.00` outstanding, a `30.00` CASH payment passing every validation, and
the handler still fails (leaving the state unchanged). -/
theorem monthly_payment_raises_type_error :
    (dbA4.invoices.map (fun i => (i.status, i.total_amount, i.amount_paid))
        = [("pending", 50, 0)]) ∧
    (0 < payloadC2.amount ∧ to_money payloadC2.amount ≤ 50) ∧
    record_monthly_client_payment dbA4 payloadC2 =
      (dbA4, .error .delegation_type_error) := by
  decide

/-- Source: `record_monthly_client_payment` never changes the database state: every
validation failure happens before any mutation, and the only mutating path
(the delegation to `record_payment`) raises `TypeError` when reached. -/
theorem record_monthly_client_payment_fst (db : DB) (payload : MonthlyPaymentRequest) :
    (record_monthly_client_payment db payload).1 = db := by
  unfold record_monthly_client_payment
  dsimp only
  split
  · rfl
  · split
    · rfl
    · split
      · rfl
      · split
        · rfl
        · split <;> rfl

/-! ## C3 -/

unseal Rat.add Rat.sub Rat.mul Rat.inv in
/-- C3 (code bug).  The claim says `cancelled` is terminal: recording a payment
against a cancelled invoice never succeeds and never moves its status to
partial or paid.  `record_payment` only rejects statuses "draft" and "paid",
so a payment against a cancelled invoice is accepted and resurrects it:
concretely, cancelling the pending `50.00` invoice of scenario A and then
recording a `20.00` CASH payment succeeds and sets status "partial". -/
theorem cancelled_invoice_accepts_payment :
    (dbC3.invoices.map (fun i => (i.status, i.amount_paid)) = [("cancelled", 0)]) ∧
    (record_payment dbC3 1 20 "CASH" none none none 4).2 = .ok "partial" ∧
    ((record_payment dbC3 1 20 "CASH" none none none 4).1.invoices.map
        (fun i => (i.status, i.amount_paid)) = [("partial", 20)]) := by
  decide

/-! ## C1 (counterexample part) -/

unseal Rat.add Rat.sub Rat.mul Rat.inv in
/-- C1, counterexample.  The claim says draft generation resolves each
container's price as the entry with the greatest `effective_from ≤ now` and
fails with `PriceNotSet` when no such entry exists — so a future-dated entry
is never used.  In scenario F the pair's *only* entry lies strictly in the
future of the generation instant 5, yet generation succeeds and snapshots
that future price: the query orders by `effective_from` descending with no
time filter. -/
theorem generate_draft_uses_future_price :
    (∀ p ∈ dbF2.prices, ¬ (p.effective_from ≤ 5)) ∧
    (generate_draft_invoice dbF2 1 ⟨5, 2025, 3⟩).2 = .ok 1 ∧
    ((generate_draft_invoice dbF2 1 ⟨5, 2025, 3⟩).1.invoice_items.map
        (fun it => (it.container_id, it.quantity, it.price_snapshot))
      = [(1, 2, 10)]) := by
  decide

/-! ## C4 (counterexample part) -/

unseal Rat.add Rat.sub Rat.mul Rat.inv in
/-- C4, counterexample.  The claim says the post-payment status is
"paid" iff the updated `amount_paid` is `≥ total_amount` and "partial" when
it is positive but below `total_amount`.  The code compares against
`round2(total_amount)` instead: paying `100.00` against the `100.004`
invoice of scenario B yields status "paid" although `amount_paid` stays
strictly below `total_amount` (the claim would require "partial"). -/
theorem record_payment_paid_status_below_total :
    (record_payment dbB4 1 100 "CASH" none none none 3).2 = .ok "paid" ∧
    ∀ i ∈ (record_payment dbB4 1 100 "CASH" none none none 3).1.invoices,
      i.amount_paid < i.total_amount ∧ i.status = "paid" := by
  decide

/-! ## C5 (counterexample part) -/

unseal Rat.add Rat.sub Rat.mul Rat.inv in
/-- C5, counterexample.  The claim's invariant `amount_paid ≤
total_amount` fails on a reachable state: the `99.999` invoice of scenario E
has remaining balance `round2(99.999) = 100.00`, the full `100.00` payment
is accepted, and the invoice ends over-paid (`amount_paid = 100 >
total_amount = 99.999`). -/
theorem reachable_invoice_overpaid :
    Reachable dbE5 ∧ ∃ i ∈ dbE5.invoices, i.total_amount < i.amount_paid := by
  constructor
  · exact .pay dbE4 1 100 "CASH" none none none 3
      (.confirm dbE3 1 ⟨2, 2025, 3⟩
        (.generate dbE2 1 ⟨1, 2025, 3⟩
          (.add_bill dbE1 1 [⟨1, 10, 0⟩]
            (.set_price DB.empty 1 1 (99999/10000) none 0 .empty))))
  · decide

/-! ## C6 (counterexample part) -/

unseal Rat.add Rat.sub Rat.mul Rat.inv in
/-- C6, counterexample.  The claim says *every* MIXED payment whose
rounded cash+electronic differs from the amount fails with `SplitMismatch`.
With a zero cash component the split sum (30) differs from the amount (50),
but the code rejects it earlier with the distinct error "Both cash and UPI
amounts are required for CASH_UPI payments", not `SplitMismatch`.  (The
invoice is still left unmodified.) -/
theorem mixed_mismatch_other_error :
    round_money (round_money 0 + round_money 30) ≠ round_money 50 ∧
    record_payment dbA4 1 50 "CASH_UPI" (some 0) (some 30) (some "acc") 3 =
      (dbA4, .error .both_amounts_required) ∧
    PaymentError.both_amounts_required ≠ PaymentError.split_mismatch := by
  decide

/-! ## C10 -/

/-- C10.  The payment method string is normalised by trimming surrounding
whitespace and upper-casing before dispatch — so `" cash "` behaves exactly
as `"CASH"` — and any normalised method outside {CASH, UPI, CASH_UPI} is
rejected with the invalid-method error, after the amount validations but
before any payment row is appended or invoice field changed (the state comes
back unchanged). -/
theorem payment_method_normalisation :
    (∀ (db : DB) (inv_id : Nat) (a : ℚ) (m : String) (ca ua : Option ℚ)
        (acc : Option String) (now : Int) (invoice : Invoice),
      db.invoices.find? (fun i => i.id == inv_id) = some invoice →
      invoice.status ≠ "draft" → invoice.status ≠ "paid" →
      0 < round_money a →
      round_money a ≤ round_money (invoice.total_amount - invoice.amount_paid) →
      normMethod m ∉ ALLOWED_METHODS →
      record_payment db inv_id a m ca ua acc now = (db, .error .invalid_payment_method)) ∧
    (∀ (db : DB) (inv_id : Nat) (a : ℚ) (ca ua : Option ℚ)
        (acc : Option String) (now : Int),
      record_payment db inv_id a " cash " ca ua acc now =
        record_payment db inv_id a "CASH" ca ua acc now) := by
  constructor
  · intro db inv_id a m ca ua acc now invoice hfind hd hp ha hr hbad
    unfold record_payment
    rw [hfind]
    dsimp only
    rw [if_neg hd, if_neg hp, if_neg (not_le.mpr ha), if_neg (not_lt.mpr hr), if_pos hbad]
  · intro db inv_id a ca ua acc now
    unfold record_payment
    rw [show normMethod " cash " = "CASH" from by decide,
      show normMethod "CASH" = "CASH" from by decide]

unseal Rat.add Rat.sub Rat.mul Rat.inv in
/-- Witness for C10: in scenario A (pending invoice, valid amount), the
method `"XYZ"` is rejected with the invalid-method error and the state is
unchanged, while `" cash "` is accepted exactly as `"CASH"`. -/
theorem payment_method_normalisation_witness :
    record_payment dbA4 1 20 "XYZ" none none none 5 =
      (dbA4, .error .invalid_payment_method) ∧
    record_payment dbA4 1 20 " cash " none none none 5 =
      record_payment dbA4 1 20 "CASH" none none none 5 := by
  constructor
  · exact payment_method_normalisation.1 dbA4 1 20 "XYZ" none none none 5
      { id := 1, client_id := 1, total_amount := 50, amount_paid := 0,
        status := "pending", created_at := 1, created_year := 2025,
        created_month := 3, confirmed_at := some 2, due_date := some 9 }
      (by decide) (by decide) (by decide) (by decide) (by decide) (by decide)
  · exact payment_method_normalisation.2 dbA4 1 20 none none none 5

/-! ## C6 (amended part) -/

/-- C6, amended.  For every MIXED (CASH_UPI) payment that passes the
invoice/state/amount checks and has both rounded components positive, a
rounded component sum differing from the rounded amount fails with
`SplitMismatch`, and the state (invoice fields and payment list) comes back
exactly unchanged. -/
theorem mixed_split_mismatch_rejected (db : DB) (inv_id : Nat) (a : ℚ)
    (m : String) (ca ua : Option ℚ) (acc : Option String) (now : Int)
    (invoice : Invoice)
    (hfind : db.invoices.find? (fun i => i.id == inv_id) = some invoice)
    (hd : invoice.status ≠ "draft") (hp : invoice.status ≠ "paid")
    (ha : 0 < round_money a)
    (hr : round_money a ≤ round_money (invoice.total_amount - invoice.amount_paid))
    (hm : normMethod m = "CASH_UPI")
    (hc : 0 < round_money (ca.getD 0)) (hu : 0 < round_money (ua.getD 0))
    (hne : round_money (round_money (ca.getD 0) + round_money (ua.getD 0)) ≠ round_money a) :
    record_payment db inv_id a m ca ua acc now = (db, .error .split_mismatch) := by
  unfold record_payment
  rw [hfind]
  dsimp only
  rw [if_neg hd, if_neg hp, if_neg (not_le.mpr ha), if_neg (not_lt.mpr hr), hm,
    if_neg (by decide : ¬ ("CASH_UPI" ∉ ALLOWED_METHODS))]
  unfold validate_split
  rw [if_neg (by decide : ¬ ("CASH_UPI" = "CASH")),
    if_neg (by decide : ¬ ("CASH_UPI" = "UPI"))]
  dsimp only
  rw [if_neg (by push_neg; exact ⟨hc, hu⟩), if_pos hne]

unseal Rat.add Rat.sub Rat.mul Rat.inv in
/-- Witness for C6: in scenario A, a CASH_UPI payment of 50 split 20 + 25
(both positive, sum 45 ≠ 50) fails with `SplitMismatch` and leaves the state
unchanged. -/
theorem mixed_split_mismatch_rejected_witness :
    record_payment dbA4 1 50 "CASH_UPI" (some 20) (some 25) (some "acc") 3 =
      (dbA4, .error .split_mismatch) :=
  mixed_split_mismatch_rejected dbA4 1 50 "CASH_UPI" (some 20) (some 25)
    (some "acc") 3
    { id := 1, client_id := 1, total_amount := 50, amount_paid := 0,
      status := "pending", created_at := 1, created_year := 2025,
      created_month := 3, confirmed_at := some 2, due_date := some 9 }
    (by decide) (by decide) (by decide) (by decide) (by decide) (by decide)
    (by decide) (by decide) (by decide)

/-! ## C9 -/

/-- After a successful draft generation, every trip of the client carries an
invoice link (step 6 re-queries all still-unlinked trips and links them). -/
theorem generate_draft_locks_all_trips (db : DB) (c : Nat) (clock : Clock) (inv_id : Nat)
    (h : (generate_draft_invoice db c clock).2 = .ok inv_id) :
    ∀ t ∈ (generate_draft_invoice db c clock).1.trips,
      t.client_id = c → t.invoice_id.isSome := by
  unfold generate_draft_invoice at h ⊢
  by_cases he : (billable_rows db c).isEmpty
  · rw [if_pos he] at h
    simp at h
  · rw [if_neg he] at h ⊢
    cases hres : resolve_items db c db.next_invoice_id (billable_rows db c) with
    | error e =>
      rw [hres] at h
      simp at h
    | ok items =>
      dsimp only
      intro t ht hc
      obtain ⟨t0, ht0, rfl⟩ := List.mem_map.mp ht
      by_cases hcond : (t0.client_id == c && t0.invoice_id.isNone) = true
      · rw [if_pos hcond]
        rfl
      · rw [if_neg hcond] at hc ⊢
        simp only [Bool.and_eq_true, beq_iff_eq, not_and] at hcond
        have := hcond hc
        simp [Option.isSome_iff_ne_none, Option.isNone_iff_eq_none] at this ⊢
        exact this

/-- The unbilled-delivery aggregation of a client is empty once all the
client's trips carry an invoice link. -/
theorem billable_rows_empty_of_locked (db : DB) (c : Nat)
    (h : ∀ t ∈ db.trips, t.client_id = c → t.invoice_id.isSome) :
    billable_rows db c = [] := by
  have hfilter : db.trip_containers.filter (joins_unbilled db c) = [] := by
    rw [List.filter_eq_nil_iff]
    intro tc _htc
    unfold joins_unbilled
    cases hfind : db.trips.find? (fun t => t.id == tc.trip_id) with
    | none => simp
    | some t =>
      have htmem : t ∈ db.trips := List.mem_of_find?_eq_some hfind
      simp only [Bool.and_eq_true, beq_iff_eq, not_and]
      intro hcl
      have := h t htmem hcl
      simp [Option.isSome_iff_ne_none, Option.isNone_iff_eq_none] at this ⊢
      exact this
  unfold billable_rows aggregate_delivered
  rw [hfilter]
  rfl

/-- C9.  If `generateDraft` succeeds for a client and no new delivery
records are created afterwards, a second call for the same client fails with
`NoBillableDeliveries` and creates no invoice (the state comes back
unchanged): the first call linked every previously unlinked trip of the
client to the new invoice. -/
theorem generate_draft_twice_no_billable (db : DB) (c : Nat) (clock clock' : Clock)
    (inv_id : Nat) (h : (generate_draft_invoice db c clock).2 = .ok inv_id) :
    (∀ t ∈ (generate_draft_invoice db c clock).1.trips,
        t.client_id = c → t.invoice_id.isSome) ∧
    generate_draft_invoice (generate_draft_invoice db c clock).1 c clock' =
      ((generate_draft_invoice db c clock).1, .error .no_billable_deliveries) := by
  refine ⟨generate_draft_locks_all_trips db c clock inv_id h, ?_⟩
  have hempty : billable_rows (generate_draft_invoice db c clock).1 c = [] :=
    billable_rows_empty_of_locked _ c (generate_draft_locks_all_trips db c clock inv_id h)
  conv_lhs => rw [generate_draft_invoice]
  rw [hempty]
  rfl

unseal Rat.add Rat.sub Rat.mul Rat.inv in
/-- Witness for C9: in scenario A the first generation succeeds and the
second, with no deliveries in between, fails with `NoBillableDeliveries`
leaving the state unchanged. -/
theorem generate_draft_twice_no_billable_witness :
    (∀ t ∈ (generate_draft_invoice dbA2 1 ⟨1, 2025, 3⟩).1.trips,
        t.client_id = 1 → t.invoice_id.isSome) ∧
    generate_draft_invoice (generate_draft_invoice dbA2 1 ⟨1, 2025, 3⟩).1 1 ⟨9, 2025, 3⟩ =
      ((generate_draft_invoice dbA2 1 ⟨1, 2025, 3⟩).1, .error .no_billable_deliveries) :=
  generate_draft_twice_no_billable dbA2 1 ⟨1, 2025, 3⟩ ⟨9, 2025, 3⟩ 1 (by decide)

/-! ## C8 -/

/-- Source: `latest_of` returns `none` exactly on the empty entry list. -/
theorem latest_of_eq_none {l : List ClientContainerPrice} :
    latest_of l = none ↔ l = [] := by
  cases l with
  | nil => simp [latest_of]
  | cons a as =>
    simp only [latest_of]
    cases latest_of as <;> simp

/-- The head of the descending-ordered price query is one of the entries. -/
theorem latest_of_mem {l : List ClientContainerPrice} {p : ClientContainerPrice}
    (h : latest_of l = some p) : p ∈ l := by
  induction l generalizing p with
  | nil => simp [latest_of] at h
  | cons a as ih =>
    rw [latest_of] at h
    cases hl : latest_of as with
    | none =>
      rw [hl] at h
      injection h with h
      exact h ▸ List.mem_cons_self a as
    | some q =>
      rw [hl] at h
      injection h with h
      unfold later_price at h
      by_cases hlt : a.effective_from < q.effective_from
      · rw [if_pos hlt] at h
        exact List.mem_cons_of_mem a (h ▸ ih hl)
      · rw [if_neg hlt] at h
        exact h ▸ List.mem_cons_self a as

/-- The head of the descending-ordered price query has the greatest
`effective_from` among the entries. -/
theorem latest_of_le {l : List ClientContainerPrice} {p q : ClientContainerPrice}
    (hq : q ∈ l) (h : latest_of l = some p) :
    q.effective_from ≤ p.effective_from := by
  induction l generalizing p with
  | nil => simp at hq
  | cons a as ih =>
    rw [latest_of] at h
    cases hl : latest_of as with
    | none =>
      have has : as = [] := latest_of_eq_none.mp hl
      subst has
      rw [hl] at h
      injection h with h
      simp at hq
      rw [hq, h]
    | some r =>
      rw [hl] at h
      injection h with h
      have hbound : a.effective_from ≤ p.effective_from ∧
          r.effective_from ≤ p.effective_from := by
        unfold later_price at h
        by_cases hlt : a.effective_from < r.effective_from
        · rw [if_pos hlt] at h
          subst h
          exact ⟨le_of_lt hlt, le_refl _⟩
        · rw [if_neg hlt] at h
          subst h
          exact ⟨le_refl _, le_of_not_lt hlt⟩
      rcases List.mem_cons.mp hq with rfl | hq'
      · exact hbound.1
      · exact le_trans (ih hq' hl) hbound.2

/-- C8.  Price insertion for a (client, container) pair: if an entry already
exists at exactly the same effective-from timestamp the insert fails with
`DuplicateEffectiveDate`; otherwise if the new effective-from is ≤ the pair's
current latest effective-from it fails with `Backdated`; otherwise the entry
is appended to the pair's sequence, which therefore stays strictly
increasing in effective-from. -/
theorem set_client_price_ordering (db : DB) (c k : Nat) (p : ℚ) (eff : Option Int)
    (now : Int) :
    ((∃ e ∈ pair_prices db c k, e.effective_from = eff.getD now) →
      set_client_price db c k p eff now = (db, .error .duplicate_effective_date)) ∧
    ((∀ e ∈ pair_prices db c k, e.effective_from ≠ eff.getD now) →
      ∀ latest_entry, latest_of (pair_prices db c k) = some latest_entry →
      eff.getD now ≤ latest_entry.effective_from →
      set_client_price db c k p eff now = (db, .error .must_be_later_than_current)) ∧
    ((∀ e ∈ pair_prices db c k, e.effective_from ≠ eff.getD now) →
      (∀ latest_entry, latest_of (pair_prices db c k) = some latest_entry →
        latest_entry.effective_from < eff.getD now) →
      set_client_price db c k p eff now =
        ({ db with prices := db.prices ++
            [{ client_id := c, container_id := k, price := p,
               effective_from := eff.getD now }] }, .ok ()) ∧
      pair_prices (set_client_price db c k p eff now).1 c k =
        pair_prices db c k ++
          [{ client_id := c, container_id := k, price := p,
             effective_from := eff.getD now }] ∧
      (List.Pairwise (· < ·) ((pair_prices db c k).map (fun e => e.effective_from)) →
        List.Pairwise (· < ·)
          ((pair_prices (set_client_price db c k p eff now).1 c k).map
            (fun e => e.effective_from)))) := by
  have hany_of : (∀ e ∈ pair_prices db c k, e.effective_from ≠ eff.getD now) →
      ((pair_prices db c k).any (fun q => q.effective_from == eff.getD now)) = false := by
    intro hnd
    rw [List.any_eq_false]
    intro e he
    simpa using hnd e he
  refine ⟨?_, ?_, ?_⟩
  · rintro ⟨e, he, heq⟩
    simp only [set_client_price]
    rw [if_pos (List.any_eq_true.mpr ⟨e, he, by simpa using heq⟩)]
  · intro hnd latest_entry hla hle
    simp only [set_client_price]
    rw [hany_of hnd]
    simp only [Bool.false_eq_true, if_false]
    rw [hla]
    dsimp only
    rw [if_pos hle]
  · intro hnd hgt
    have hsucc : set_client_price db c k p eff now =
        ({ db with prices := db.prices ++
            [{ client_id := c, container_id := k, price := p,
               effective_from := eff.getD now }] }, .ok ()) := by
      simp only [set_client_price]
      rw [hany_of hnd]
      simp only [Bool.false_eq_true, if_false]
      cases hla : latest_of (pair_prices db c k) with
      | none => rfl
      | some latest_entry =>
        dsimp only
        rw [if_neg (not_le.mpr (hgt latest_entry hla))]
    have hpair : pair_prices (set_client_price db c k p eff now).1 c k =
        pair_prices db c k ++
          [{ client_id := c, container_id := k, price := p,
             effective_from := eff.getD now }] := by
      rw [hsucc]
      unfold pair_prices
      rw [List.filter_append]
      simp
    refine ⟨hsucc, hpair, ?_⟩
    intro hsorted
    rw [hpair, List.map_append, List.pairwise_append]
    refine ⟨hsorted, by simp, ?_⟩
    intro x hx y hy
    obtain ⟨e, he, rfl⟩ := List.mem_map.mp hx
    simp at hy
    subst hy
    cases hla : latest_of (pair_prices db c k) with
    | none =>
      have : pair_prices db c k = [] := latest_of_eq_none.mp hla
      rw [this] at he
      simp at he
    | some latest_entry =>
      exact lt_of_le_of_lt (latest_of_le he hla) (hgt latest_entry hla)

unseal Rat.add Rat.sub Rat.mul Rat.inv in
/-- Witness for C8, exercising all three branches on scenario A's ledger
(entry at effective-from 0): a duplicate at 0, a backdated insert at -5, and
a successful later insert at 50. -/
theorem set_client_price_ordering_witness :
    set_client_price dbA1 1 1 12 (some 0) 7 = (dbA1, .error .duplicate_effective_date) ∧
    set_client_price dbA1 1 1 12 (some (-5)) 7 =
      (dbA1, .error .must_be_later_than_current) ∧
    set_client_price dbA1 1 1 12 (some 50) 7 =
      ({ dbA1 with prices := dbA1.prices ++
          [{ client_id := 1, container_id := 1, price := 12, effective_from := 50 }] },
        .ok ()) := by
  refine ⟨?_, ?_, ?_⟩
  · exact (set_client_price_ordering dbA1 1 1 12 (some 0) 7).1
      ⟨{ client_id := 1, container_id := 1, price := 10, effective_from := 0 },
        by decide, by decide⟩
  · exact (set_client_price_ordering dbA1 1 1 12 (some (-5)) 7).2.1
      (by decide)
      { client_id := 1, container_id := 1, price := 10, effective_from := 0 }
      (by decide) (by decide)
  · exact ((set_client_price_ordering dbA1 1 1 12 (some 50) 7).2.2
      (by decide) (by decide)).1

/-! ## C1 (amended part) -/

/-- Pricing validation: if some aggregated row's container has no price
entry at all, `resolve_items` fails with `price_not_set` for such a
container. -/
theorem resolve_items_error_of_missing (db : DB) (c i : Nat) (rows : List (Nat × Int))
    (h : ∃ r ∈ rows, latest_price db c r.1 = none) :
    ∃ k, resolve_items db c i rows = .error (.price_not_set k) ∧
      latest_price db c k = none := by
  induction rows with
  | nil => simp at h
  | cons r rs ih =>
    obtain ⟨r0, hr0, hnone⟩ := h
    obtain ⟨cid, qty⟩ := r
    cases hlp : latest_price db c cid with
    | none =>
      refine ⟨cid, ?_, hlp⟩
      simp only [resolve_items]
      rw [hlp]
    | some p =>
      rcases List.mem_cons.mp hr0 with heq | hmem
      · rw [heq] at hnone
        dsimp only at hnone
        rw [hlp] at hnone
        cases hnone
      · obtain ⟨k, hk, hkn⟩ := ih ⟨r0, hmem, hnone⟩
        refine ⟨k, ?_, hkn⟩
        simp only [resolve_items]
        rw [hlp]
        dsimp only
        rw [hk]

/-- Pricing resolution: if every aggregated row's container has a price
entry, `resolve_items` succeeds, producing exactly one line item per row,
each snapshotting the pair's latest price entry. -/
theorem resolve_items_ok_of_all (db : DB) (c i : Nat) (rows : List (Nat × Int))
    (h : ∀ r ∈ rows, (latest_price db c r.1).isSome) :
    ∃ items, resolve_items db c i rows = .ok items ∧
      items.map (fun it => (it.container_id, it.quantity)) = rows ∧
      ∀ it ∈ items, it.invoice_id = i ∧
        ∃ p, latest_price db c it.container_id = some p ∧
          it.price_snapshot = p.price ∧ it.total = (it.quantity : ℚ) * p.price := by
  induction rows with
  | nil => exact ⟨[], rfl, rfl, by simp⟩
  | cons r rs ih =>
    obtain ⟨cid, qty⟩ := r
    have hr := h (cid, qty) (List.mem_cons_self _ _)
    obtain ⟨p, hp⟩ := Option.isSome_iff_exists.mp hr
    obtain ⟨items, hits, hmap, hall⟩ :=
      ih (fun r hr' => h r (List.mem_cons_of_mem _ hr'))
    refine ⟨{ invoice_id := i, container_id := cid, quantity := qty,
              price_snapshot := p.price, total := (qty : ℚ) * p.price } :: items,
            ?_, ?_, ?_⟩
    · simp only [resolve_items]
      rw [hp]
      dsimp only
      rw [hits]
    · simp [hmap]
    · intro it hit
      rcases List.mem_cons.mp hit with rfl | hmem
      · exact ⟨rfl, p, hp, rfl, rfl⟩
      · exact hall it hmem

/-- C1, amended.  For a client with a nonempty billable aggregation: if some
billed container has no price entry at all, generation fails with
`PriceNotSet` for such a container, creating no invoice (state unchanged);
if every billed container has at least one entry, generation succeeds and
each created line item snapshots the pair's entry with the greatest
effective-from — regardless of whether that entry's effective-from is in the
future of the generation time. -/
theorem generate_draft_price_resolution (db : DB) (c : Nat) (clock : Clock)
    (hne : billable_rows db c ≠ []) :
    ((∃ r ∈ billable_rows db c, latest_price db c r.1 = none) →
      ∃ k, generate_draft_invoice db c clock = (db, .error (.price_not_set k)) ∧
        latest_price db c k = none) ∧
    ((∀ r ∈ billable_rows db c, (latest_price db c r.1).isSome) →
      (generate_draft_invoice db c clock).2 = .ok db.next_invoice_id ∧
      ∃ new_items,
        (generate_draft_invoice db c clock).1.invoice_items =
          db.invoice_items ++ new_items ∧
        new_items.map (fun it => (it.container_id, it.quantity)) = billable_rows db c ∧
        ∀ it ∈ new_items, it.invoice_id = db.next_invoice_id ∧
          ∃ p, latest_price db c it.container_id = some p ∧
            it.price_snapshot = p.price) := by
  have hempty : (billable_rows db c).isEmpty = false := by
    cases hb : billable_rows db c with
    | nil => exact absurd hb hne
    | cons x xs => rfl
  constructor
  · intro hmiss
    obtain ⟨k, hk, hkn⟩ := resolve_items_error_of_missing db c db.next_invoice_id _ hmiss
    refine ⟨k, ?_, hkn⟩
    simp only [generate_draft_invoice, hempty, Bool.false_eq_true, if_false]
    rw [hk]
  · intro hall
    obtain ⟨items, hits, hmap, hprices⟩ :=
      resolve_items_ok_of_all db c db.next_invoice_id _ hall
    simp only [generate_draft_invoice, hempty, Bool.false_eq_true, if_false]
    rw [hits]
    dsimp only
    exact ⟨rfl, items, rfl, hmap,
      fun it hit => ⟨(hprices it hit).1,
        ((hprices it hit).2).imp (fun p hp => ⟨hp.1, hp.2.1⟩)⟩⟩

unseal Rat.add Rat.sub Rat.mul Rat.inv in
/-- Witness for C1: in scenario A (price present), generation succeeds and
the produced line items snapshot the pair's latest price entry. -/
theorem generate_draft_price_resolution_witness :
    (generate_draft_invoice dbA2 1 ⟨1, 2025, 3⟩).2 = .ok dbA2.next_invoice_id ∧
    ∃ new_items,
      (generate_draft_invoice dbA2 1 ⟨1, 2025, 3⟩).1.invoice_items =
        dbA2.invoice_items ++ new_items ∧
      new_items.map (fun it => (it.container_id, it.quantity)) = billable_rows dbA2 1 ∧
      ∀ it ∈ new_items, it.invoice_id = dbA2.next_invoice_id ∧
        ∃ p, latest_price dbA2 1 it.container_id = some p ∧
          it.price_snapshot = p.price :=
  (generate_draft_price_resolution dbA2 1 ⟨1, 2025, 3⟩ (by decide)).2 (by decide)

/-! ## C4 (amended part) -/

/-- A successful split validation returns components that sum exactly to the
(already cent-valued) amount, with the single-method cases fully
determined. -/
theorem validate_split_ok (method : String) (amount : ℚ) (ca ua : Option ℚ)
    (acc : Option String) (nc nu : ℚ)
    (h : validate_split method amount ca ua acc = .ok (nc, nu)) :
    nc + nu = amount ∧
    (method = "CASH" → nc = amount ∧ nu = 0) ∧
    (method = "UPI" → nu = amount ∧ nc = 0) := by
  unfold validate_split at h
  by_cases h1 : method = "CASH"
  · rw [if_pos h1] at h
    injection h with h
    injection h with hnc hnu
    subst hnc
    subst hnu
    exact ⟨by ring, fun _ => ⟨rfl, rfl⟩, fun hu => absurd (h1 ▸ hu) (by decide)⟩
  · rw [if_neg h1] at h
    by_cases h2 : method = "UPI"
    · rw [if_pos h2] at h
      by_cases hacc : acc = none
      · rw [if_pos hacc] at h
        cases h
      · rw [if_neg hacc] at h
        injection h with h
        injection h with hnc hnu
        subst hnc
        subst hnu
        exact ⟨by ring, fun hc => absurd hc h1, fun _ => ⟨rfl, rfl⟩⟩
    · rw [if_neg h2] at h
      dsimp only at h
      by_cases h3 : round_money (ca.getD 0) ≤ 0 ∨ round_money (ua.getD 0) ≤ 0
      · rw [if_pos h3] at h
        cases h
      · rw [if_neg h3] at h
        by_cases h4 : round_money (round_money (ca.getD 0) + round_money (ua.getD 0)) ≠ amount
        · rw [if_pos h4] at h
          cases h
        · rw [if_neg h4] at h
          by_cases h5 : acc = none
          · rw [if_pos h5] at h
            cases h
          · rw [if_neg h5] at h
            injection h with h
            injection h with hnc hnu
            subst hnc
            subst hnu
            push_neg at h4
            have hsum : round_money (round_money (ca.getD 0) + round_money (ua.getD 0)) =
                round_money (ca.getD 0) + round_money (ua.getD 0) :=
              round_money_of_isCent ((isCent_round_money _).add (isCent_round_money _))
            exact ⟨by rw [← hsum, h4], fun hc => absurd hc h1, fun hu => absurd hu h2⟩

/-- C4, amended.  For every successful single-invoice payment:
`amount_paid` becomes `round2(amount_paid + round2(amount))`, a `Payment`
row carrying the validated split (components summing exactly to the rounded
amount, fully determined for CASH and UPI) is appended, and the new status
is "paid" iff the updated `amount_paid ≥ round2(total_amount)`, "partial"
iff it is positive but below `round2(total_amount)`, and "pending"
otherwise. -/
theorem record_payment_success_postcondition (db : DB) (inv_id : Nat) (a : ℚ)
    (m : String) (ca ua : Option ℚ) (acc : Option String) (now : Int)
    (db' : DB) (st : String)
    (h : record_payment db inv_id a m ca ua acc now = (db', .ok st)) :
    ∃ invoice, db.invoices.find? (fun i => i.id == inv_id) = some invoice ∧
      st = (if round_money invoice.total_amount ≤
              round_money (invoice.amount_paid + round_money a) then "paid"
            else if 0 < round_money (invoice.amount_paid + round_money a) then "partial"
            else "pending") ∧
      db'.invoices = db.invoices.map (fun i =>
        if i.id == invoice.id then
          { i with amount_paid := round_money (invoice.amount_paid + round_money a),
                   status := st }
        else i) ∧
      ∃ payment, db'.payments = db.payments ++ [payment] ∧
        payment.invoice_id = invoice.id ∧
        payment.amount = round_money a ∧
        payment.method = normMethod m ∧
        payment.cash_amount + payment.upi_amount = payment.amount ∧
        (normMethod m = "CASH" →
          payment.cash_amount = payment.amount ∧ payment.upi_amount = 0) ∧
        (normMethod m = "UPI" →
          payment.upi_amount = payment.amount ∧ payment.cash_amount = 0) := by
  unfold record_payment at h
  cases hfind : db.invoices.find? (fun i => i.id == inv_id) with
  | none =>
    rw [hfind] at h
    cases h
  | some invoice =>
    rw [hfind] at h
    dsimp only at h
    by_cases h1 : invoice.status = "draft"
    · rw [if_pos h1] at h
      cases h
    rw [if_neg h1] at h
    by_cases h2 : invoice.status = "paid"
    · rw [if_pos h2] at h
      cases h
    rw [if_neg h2] at h
    by_cases h3 : round_money a ≤ 0
    · rw [if_pos h3] at h
      cases h
    rw [if_neg h3] at h
    by_cases h4 : round_money (invoice.total_amount - invoice.amount_paid) < round_money a
    · rw [if_pos h4] at h
      cases h
    rw [if_neg h4] at h
    by_cases h5 : normMethod m ∉ ALLOWED_METHODS
    · rw [if_pos h5] at h
      cases h
    rw [if_neg h5] at h
    cases hsplit : validate_split (normMethod m) (round_money a) ca ua (norm_opt_str acc) with
    | error e =>
      rw [hsplit] at h
      cases h
    | ok pr =>
      obtain ⟨nc, nu⟩ := pr
      rw [hsplit] at h
      dsimp only at h
      injection h with hdb hok
      injection hok with hst
      obtain ⟨hsum, hcash, hupi⟩ :=
        validate_split_ok (normMethod m) (round_money a) ca ua (norm_opt_str acc) nc nu hsplit
      subst hdb
      subst hst
      refine ⟨invoice, rfl, rfl, rfl,
        ⟨{ invoice_id := invoice.id, amount := round_money a, method := normMethod m,
           cash_amount := nc, upi_amount := nu, upi_account := norm_opt_str acc,
           created_at := now }, rfl, rfl, rfl, rfl, hsum, ?_, ?_⟩⟩
      · intro hc
        obtain ⟨hc1, hc2⟩ := hcash hc
        exact ⟨hc1, hc2⟩
      · intro hu
        obtain ⟨hu1, hu2⟩ := hupi hu
        exact ⟨hu1, hu2⟩

unseal Rat.add Rat.sub Rat.mul Rat.inv in
/-- Witness for C4: the 20.00 CASH payment in scenario A yields status
"partial" according to the rounded-total rule, with the payment row
appended. -/
theorem record_payment_success_postcondition_witness :
    ∃ invoice, dbA4.invoices.find? (fun i => i.id == 1) = some invoice ∧
      "partial" = (if round_money invoice.total_amount ≤
              round_money (invoice.amount_paid + round_money 20) then "paid"
            else if 0 < round_money (invoice.amount_paid + round_money 20) then "partial"
            else "pending") ∧
      (record_payment dbA4 1 20 "CASH" none none none 5).1.invoices =
        dbA4.invoices.map (fun i =>
          if i.id == invoice.id then
            { i with amount_paid := round_money (invoice.amount_paid + round_money 20),
                     status := "partial" }
          else i) ∧
      ∃ payment,
        (record_payment dbA4 1 20 "CASH" none none none 5).1.payments =
          dbA4.payments ++ [payment] ∧
        payment.invoice_id = invoice.id ∧
        payment.amount = round_money 20 ∧
        payment.method = normMethod "CASH" ∧
        payment.cash_amount + payment.upi_amount = payment.amount ∧
        (normMethod "CASH" = "CASH" →
          payment.cash_amount = payment.amount ∧ payment.upi_amount = 0) ∧
        (normMethod "CASH" = "UPI" →
          payment.upi_amount = payment.amount ∧ payment.cash_amount = 0) :=
  record_payment_success_postcondition dbA4 1 20 "CASH" none none none 5
    (record_payment dbA4 1 20 "CASH" none none none 5).1 "partial" (by decide)

/-! ## C7 -/

/-- Sum of the line-item quantities currently attached to one invoice. -/
def invoice_quantity_sum (db : DB) (inv_id : Nat) : Int :=
  ((db.invoice_items.filter (fun it => it.invoice_id == inv_id)).map
    (fun it => it.quantity)).sum

/-- Sum of the line-item totals currently attached to one invoice. -/
def invoice_items_total (db : DB) (inv_id : Nat) : ℚ :=
  ((db.invoice_items.filter (fun it => it.invoice_id == inv_id)).map
    (fun it => it.total)).sum

/-- C7.  After every successful void+reissue (in a state with fresh
autoincrement counters): the old invoice really was the one looked up; the
sum of line-item quantities on the new invoice equals the sum on the old
invoice; every trip previously linked to the old invoice is re-linked to the
new invoice and no trip links the old invoice any more (others are
untouched); the old invoice is cancelled; and each new line item copies an
old item's container and quantity, priced at the pair's latest ledger entry,
falling back to the old `price_snapshot` only when the pair has no entry at
all. -/
theorem void_reissue_conservation (db : DB) (inv_id : Nat) (clock : Clock)
    (db' : DB) (new_id : Nat)
    (hfresh_inv : ∀ i ∈ db.invoices, i.id < db.next_invoice_id)
    (hfresh_items : ∀ it ∈ db.invoice_items, it.invoice_id < db.next_invoice_id)
    (h : void_reissue_invoice db inv_id clock = (db', .ok new_id)) :
    ∃ invoice, db.invoices.find? (fun i => i.id == inv_id) = some invoice ∧
      invoice.id = inv_id ∧
      invoice_quantity_sum db' new_id = invoice_quantity_sum db inv_id ∧
      db'.trips = db.trips.map (fun t =>
        if t.invoice_id == some inv_id then { t with invoice_id := some new_id }
        else t) ∧
      (∀ t ∈ db'.trips, t.invoice_id ≠ some inv_id) ∧
      (∀ i ∈ db'.invoices, i.id = inv_id → i.status = "cancelled") ∧
      (∀ it ∈ db'.invoice_items, it.invoice_id = new_id →
        ∃ old ∈ db.invoice_items, old.invoice_id = inv_id ∧
          it.container_id = old.container_id ∧ it.quantity = old.quantity ∧
          it.price_snapshot =
            (match latest_price db invoice.client_id old.container_id with
              | some p => p.price
              | none => old.price_snapshot)) := by
  unfold void_reissue_invoice at h
  cases hfind : db.invoices.find? (fun i => i.id == inv_id) with
  | none =>
    rw [hfind] at h
    cases h
  | some invoice =>
    rw [hfind] at h
    dsimp only at h
    have heq : invoice.id = inv_id := by
      have := List.find?_some hfind
      simpa using this
    have hmem : invoice ∈ db.invoices := List.mem_of_find?_eq_some hfind
    have hlt : invoice.id < db.next_invoice_id := hfresh_inv invoice hmem
    by_cases h1 : invoice.status = "draft" ∨ invoice.status = "pending"
    swap
    · rw [if_pos h1] at h
      cases h
    rw [if_neg (not_not_intro h1)] at h
    by_cases h2 : 0 < invoice.amount_paid
    · rw [if_pos h2] at h
      cases h
    rw [if_neg h2] at h
    by_cases h3 : (db.invoice_items.filter (fun it => it.invoice_id == invoice.id)).isEmpty
    · rw [if_pos h3] at h
      cases h
    rw [if_neg h3] at h
    injection h with hdb hok
    injection hok with hnew
    subst hdb
    subst hnew
    subst heq
    set old_items := db.invoice_items.filter (fun it => it.invoice_id == invoice.id) with hold
    set new_items := old_items.map (fun item =>
      ({ invoice_id := db.next_invoice_id, container_id := item.container_id,
         quantity := item.quantity,
         price_snapshot :=
           (match latest_price db invoice.client_id item.container_id with
             | some p => p.price
             | none => item.price_snapshot),
         total := (item.quantity : ℚ) *
           (match latest_price db invoice.client_id item.container_id with
             | some p => p.price
             | none => item.price_snapshot) } : InvoiceItem)) with hnewit
    have hfilter_old :
        db.invoice_items.filter (fun it => it.invoice_id == db.next_invoice_id) = [] := by
      rw [List.filter_eq_nil_iff]
      intro it hit
      simp only [beq_iff_eq]
      exact Nat.ne_of_lt (hfresh_items it hit)
    have hfilter_new :
        new_items.filter (fun it => it.invoice_id == db.next_invoice_id) = new_items := by
      rw [List.filter_eq_self]
      intro it hit
      obtain ⟨o, _, rfl⟩ := List.mem_map.mp hit
      simp
    refine ⟨invoice, rfl, rfl, ?_, rfl, ?_, ?_, ?_⟩
    · unfold invoice_quantity_sum
      dsimp only
      rw [List.filter_append, hfilter_old, hfilter_new, List.nil_append, hnewit,
        List.map_map]
      rfl
    · intro t ht hlink
      obtain ⟨t0, ht0, rfl⟩ := List.mem_map.mp ht
      by_cases hc : (t0.invoice_id == some invoice.id) = true
      · rw [if_pos hc] at hlink
        exact Nat.ne_of_lt hlt (Option.some.inj hlink).symm
      · rw [if_neg hc] at hlink
        simp only [beq_iff_eq] at hc
        exact hc hlink
    · intro i hi hid
      rcases List.mem_append.mp hi with hmap | hnewi
      · obtain ⟨i0, hi0, rfl⟩ := List.mem_map.mp hmap
        by_cases hc : (i0.id == invoice.id) = true
        · rw [if_pos hc]
        · rw [if_neg hc] at hid ⊢
          simp only [beq_iff_eq] at hc
          exact absurd hid hc
      · simp only [List.mem_singleton] at hnewi
        subst hnewi
        simp only at hid
        exact absurd hid.symm (Nat.ne_of_lt hlt)
    · intro it hit hitid
      rcases List.mem_append.mp hit with hold_side | hnew_side
      · exact absurd hitid (Nat.ne_of_lt (hfresh_items it hold_side))
      · obtain ⟨o, ho, rfl⟩ := List.mem_map.mp hnew_side
        have ho' := List.mem_filter.mp ho
        exact ⟨o, ho'.1, by simpa using ho'.2, rfl, rfl, rfl⟩

unseal Rat.add Rat.sub Rat.mul Rat.inv in
/-- Witness for C7: voiding and reissuing the draft invoice of scenario A
(1 line item, quantity 5) at instant 3. -/
theorem void_reissue_conservation_witness :
    ∃ invoice, dbA3.invoices.find? (fun i => i.id == 1) = some invoice ∧
      invoice.id = 1 ∧
      invoice_quantity_sum (void_reissue_invoice dbA3 1 ⟨3, 2025, 3⟩).1 2 =
        invoice_quantity_sum dbA3 1 ∧
      (void_reissue_invoice dbA3 1 ⟨3, 2025, 3⟩).1.trips = dbA3.trips.map (fun t =>
        if t.invoice_id == some 1 then { t with invoice_id := some 2 } else t) ∧
      (∀ t ∈ (void_reissue_invoice dbA3 1 ⟨3, 2025, 3⟩).1.trips,
        t.invoice_id ≠ some 1) ∧
      (∀ i ∈ (void_reissue_invoice dbA3 1 ⟨3, 2025, 3⟩).1.invoices,
        i.id = 1 → i.status = "cancelled") ∧
      (∀ it ∈ (void_reissue_invoice dbA3 1 ⟨3, 2025, 3⟩).1.invoice_items,
        it.invoice_id = 2 →
        ∃ old ∈ dbA3.invoice_items, old.invoice_id = 1 ∧
          it.container_id = old.container_id ∧ it.quantity = old.quantity ∧
          it.price_snapshot =
            (match latest_price dbA3 invoice.client_id old.container_id with
              | some p => p.price
              | none => old.price_snapshot)) :=
  void_reissue_conservation dbA3 1 ⟨3, 2025, 3⟩
    (void_reissue_invoice dbA3 1 ⟨3, 2025, 3⟩).1 2
    (by decide) (by decide) (by decide)

/-! ## C5 (amended part): the inductive invariant -/

/-- The inductive invariant carried through every operation: the monetary
facts of C5 for every invoice (items sum to the total; `amount_paid` is a
nonnegative number of cents bounded by `max 0 (round2 total)`), plus
bookkeeping facts about the autoincrement counter (freshness and uniqueness
of invoice ids) that make the per-operation updates well-behaved. -/
def DBInvariant (db : DB) : Prop :=
  (∀ i ∈ db.invoices,
    invoice_items_total db i.id = i.total_amount ∧
    0 ≤ i.amount_paid ∧
    i.amount_paid ≤ max 0 (round_money i.total_amount) ∧
    IsCent i.amount_paid) ∧
  (∀ i ∈ db.invoices, i.id < db.next_invoice_id) ∧
  (∀ it ∈ db.invoice_items, it.invoice_id < db.next_invoice_id) ∧
  (db.invoices.map (fun i => i.id)).Nodup

/-- Invariance is insensitive to the tables it does not mention. -/
theorem dbInvariant_of_eq {db db' : DB} (hI : DBInvariant db)
    (hinv : db'.invoices = db.invoices)
    (hit : db'.invoice_items = db.invoice_items)
    (hnext : db'.next_invoice_id = db.next_invoice_id) : DBInvariant db' := by
  obtain ⟨h1, h2, h3, h4⟩ := hI
  refine ⟨?_, ?_, ?_, ?_⟩
  · intro i hi
    rw [hinv] at hi
    have := h1 i hi
    rwa [invoice_items_total, hit, ← invoice_items_total]
  · intro i hi
    rw [hinv] at hi
    rw [hnext]
    exact h2 i hi
  · intro it hit'
    rw [hit] at hit'
    rw [hnext]
    exact h3 it hit'
  · rw [hinv]
    exact h4

/-- Source: `set_client_price` either leaves the state unchanged or only
appends a price row. -/
theorem set_client_price_cases (db : DB) (c k : Nat) (p : ℚ) (eff : Option Int)
    (now : Int) :
    (set_client_price db c k p eff now).1 = db ∨
    ∃ e, (set_client_price db c k p eff now).1 = { db with prices := db.prices ++ [e] } := by
  unfold set_client_price
  dsimp only
  split
  · left
    rfl
  · split
    · split
      · left
        rfl
      · right
        exact ⟨_, rfl⟩
    · right
      exact ⟨_, rfl⟩

/-- Source: `create_missing_bill` either leaves the state unchanged or only
appends a trip and its container lines. -/
theorem create_missing_bill_cases (db : DB) (c : Nat) (lines : List TripLine) :
    (create_missing_bill db c lines).1 = db ∨
    ∃ t tcs, (create_missing_bill db c lines).1 =
      { db with trips := db.trips ++ [t], trip_containers := db.trip_containers ++ tcs,
                next_trip_id := db.next_trip_id + 1 } := by
  unfold create_missing_bill
  dsimp only
  split
  · left
    rfl
  · split
    · left
      rfl
    · right
      exact ⟨_, _, rfl⟩

theorem dbInvariant_set_price (db : DB) (c k : Nat) (p : ℚ) (eff : Option Int)
    (now : Int) (hI : DBInvariant db) :
    DBInvariant (set_client_price db c k p eff now).1 := by
  rcases set_client_price_cases db c k p eff now with heq | ⟨e, heq⟩
  · rw [heq]
    exact hI
  · exact dbInvariant_of_eq hI (by rw [heq]) (by rw [heq]) (by rw [heq])

theorem dbInvariant_add_bill (db : DB) (c : Nat) (lines : List TripLine)
    (hI : DBInvariant db) : DBInvariant (create_missing_bill db c lines).1 := by
  rcases create_missing_bill_cases db c lines with heq | ⟨t, tcs, heq⟩
  · rw [heq]
    exact hI
  · exact dbInvariant_of_eq hI (by rw [heq]) (by rw [heq]) (by rw [heq])

theorem dbInvariant_pay_month (db : DB) (payload : MonthlyPaymentRequest)
    (hI : DBInvariant db) : DBInvariant (record_monthly_client_payment db payload).1 := by
  rw [record_monthly_client_payment_fst]
  exact hI

/-- A pointwise invoice update that can change only the status and the
timestamp fields (never id, total or paid) preserves the invariant. -/
theorem dbInvariant_map_status (db : DB) (f : Invoice → Invoice)
    (hf : ∀ i, (f i).id = i.id ∧ (f i).total_amount = i.total_amount ∧
      (f i).amount_paid = i.amount_paid)
    (hI : DBInvariant db) :
    DBInvariant { db with invoices := db.invoices.map f } := by
  obtain ⟨h1, h2, h3, h4⟩ := hI
  refine ⟨?_, ?_, ?_, ?_⟩
  · intro i' hi'
    obtain ⟨i, hi, rfl⟩ := List.mem_map.mp hi'
    obtain ⟨hid, htot, hpaid⟩ := hf i
    have hsame : invoice_items_total { db with invoices := db.invoices.map f } (f i).id =
        invoice_items_total db (f i).id := rfl
    refine ⟨?_, ?_, ?_, ?_⟩
    · rw [hsame, hid, htot]
      exact (h1 i hi).1
    · rw [hpaid]
      exact (h1 i hi).2.1
    · rw [hpaid, htot]
      exact (h1 i hi).2.2.1
    · rw [hpaid]
      exact (h1 i hi).2.2.2
  · intro i' hi'
    obtain ⟨i, hi, rfl⟩ := List.mem_map.mp hi'
    rw [(hf i).1]
    exact h2 i hi
  · exact h3
  · rw [List.map_map]
    have hmapeq : db.invoices.map ((fun i => i.id) ∘ f) = db.invoices.map (fun i => i.id) :=
      List.map_congr_left (fun i _ => (hf i).1)
    rw [hmapeq]
    exact h4

/-- Source: `confirm_invoice` either leaves the state unchanged or maps one
status/timestamp update over the invoice table. -/
theorem confirm_invoice_cases (db : DB) (i : Nat) (clock : Clock) :
    (confirm_invoice db i clock).1 = db ∨
    ∃ invoice : Invoice, (confirm_invoice db i clock).1 =
      { db with invoices := db.invoices.map (fun j =>
          if j.id == invoice.id then
            { j with status := "pending", confirmed_at := some clock.t,
                     due_date := some (clock.t + 7) } else j) } := by
  unfold confirm_invoice
  cases hfind : db.invoices.find? (fun x => x.id == i) with
  | none =>
    left
    rfl
  | some invoice =>
    dsimp only
    split
    · left
      rfl
    · right
      exact ⟨invoice, rfl⟩

/-- Source: `cancel_invoice` either leaves the state unchanged or maps one
status update over the invoice table. -/
theorem cancel_invoice_cases (db : DB) (i : Nat) :
    (cancel_invoice db i).1 = db ∨
    ∃ invoice : Invoice, (cancel_invoice db i).1 =
      { db with invoices := db.invoices.map (fun j =>
          if j.id == invoice.id then { j with status := "cancelled" } else j) } := by
  unfold cancel_invoice
  cases hfind : db.invoices.find? (fun x => x.id == i) with
  | none =>
    left
    rfl
  | some invoice =>
    dsimp only
    split
    · left
      rfl
    · split
      · left
        rfl
      · right
        exact ⟨invoice, rfl⟩

theorem dbInvariant_confirm (db : DB) (i : Nat) (clock : Clock)
    (hI : DBInvariant db) : DBInvariant (confirm_invoice db i clock).1 := by
  rcases confirm_invoice_cases db i clock with heq | ⟨invoice, heq⟩
  · rw [heq]
    exact hI
  · rw [heq]
    refine dbInvariant_map_status db _ (fun j => ?_) hI
    by_cases hc : (j.id == invoice.id) = true
    · rw [if_pos hc]
      exact ⟨rfl, rfl, rfl⟩
    · rw [if_neg hc]
      exact ⟨rfl, rfl, rfl⟩

theorem dbInvariant_cancel (db : DB) (i : Nat)
    (hI : DBInvariant db) : DBInvariant (cancel_invoice db i).1 := by
  rcases cancel_invoice_cases db i with heq | ⟨invoice, heq⟩
  · rw [heq]
    exact hI
  · rw [heq]
    refine dbInvariant_map_status db _ (fun j => ?_) hI
    by_cases hc : (j.id == invoice.id) = true
    · rw [if_pos hc]
      exact ⟨rfl, rfl, rfl⟩
    · rw [if_neg hc]
      exact ⟨rfl, rfl, rfl⟩

/-- Filtering by an invoice id no item carries gives nothing. -/
theorem filter_invoice_items_ne (its : List InvoiceItem) (n : Nat)
    (h : ∀ it ∈ its, it.invoice_id ≠ n) :
    its.filter (fun it => it.invoice_id == n) = [] := by
  rw [List.filter_eq_nil_iff]
  intro it hit
  simpa using h it hit

/-- Filtering by an invoice id every item carries keeps everything. -/
theorem filter_invoice_items_all (its : List InvoiceItem) (n : Nat)
    (h : ∀ it ∈ its, it.invoice_id = n) :
    its.filter (fun it => it.invoice_id == n) = its := by
  rw [List.filter_eq_self]
  intro it hit
  simpa using h it hit

/-- Appending items that all belong to another invoice does not change a
given invoice's item list. -/
theorem filter_map_total_append_ne (A B : List InvoiceItem) (n : Nat)
    (h : ∀ it ∈ B, it.invoice_id ≠ n) :
    ((A ++ B).filter (fun it => it.invoice_id == n)).map (fun it => it.total) =
      (A.filter (fun it => it.invoice_id == n)).map (fun it => it.total) := by
  rw [List.filter_append, filter_invoice_items_ne B n h, List.append_nil]

/-- Every line item produced by `resolve_items` carries the invoice id it
was built for. -/
theorem resolve_items_invoice_id (db : DB) (c i : Nat) (rows : List (Nat × Int))
    (items : List InvoiceItem) (h : resolve_items db c i rows = .ok items) :
    ∀ it ∈ items, it.invoice_id = i := by
  induction rows generalizing items with
  | nil =>
    injection h with h'
    subst h'
    simp
  | cons r rs ih =>
    obtain ⟨cid, qty⟩ := r
    simp only [resolve_items] at h
    cases hlp : latest_price db c cid with
    | none =>
      rw [hlp] at h
      cases h
    | some p =>
      rw [hlp] at h
      dsimp only at h
      cases hres : resolve_items db c i rs with
      | error e =>
        rw [hres] at h
        cases h
      | ok its =>
        rw [hres] at h
        dsimp only at h
        injection h with h'
        subst h'
        intro it hit
        rcases List.mem_cons.mp hit with rfl | hm
        · rfl
        · exact ih its hres it hm

theorem dbInvariant_generate (db : DB) (c : Nat) (clock : Clock)
    (hI : DBInvariant db) : DBInvariant (generate_draft_invoice db c clock).1 := by
  obtain ⟨h1, h2, h3, h4⟩ := hI
  unfold generate_draft_invoice
  dsimp only
  split
  · exact ⟨h1, h2, h3, h4⟩
  · cases hres : resolve_items db c db.next_invoice_id (billable_rows db c) with
    | error e => exact ⟨h1, h2, h3, h4⟩
    | ok items =>
      dsimp only
      have hop : ∀ it ∈ items, it.invoice_id = db.next_invoice_id :=
        resolve_items_invoice_id db c _ _ items hres
      refine ⟨?_, ?_, ?_, ?_⟩
      · intro i' hi'
        rcases List.mem_append.mp hi' with hold | hnew
        · have hlt : i'.id < db.next_invoice_id := h2 i' hold
          have htot : ((db.invoice_items ++ items).filter
              (fun it => it.invoice_id == i'.id)).map (fun it => it.total) =
              (db.invoice_items.filter (fun it => it.invoice_id == i'.id)).map
                (fun it => it.total) := by
            rw [List.filter_append,
              filter_invoice_items_ne items i'.id
                (fun it hit => by rw [hop it hit]; exact Nat.ne_of_gt hlt),
              List.append_nil]
          have h1' := h1 i' hold
          exact ⟨by rw [invoice_items_total]; dsimp only; rw [htot]; exact h1'.1,
            h1'.2.1, h1'.2.2.1, h1'.2.2.2⟩
        · simp only [List.mem_singleton] at hnew
          subst hnew
          refine ⟨?_, le_refl 0, le_max_left 0 _, isCent_zero⟩
          rw [invoice_items_total]
          dsimp only
          rw [List.filter_append,
            filter_invoice_items_ne db.invoice_items db.next_invoice_id
              (fun it hit => Nat.ne_of_lt (h3 it hit)),
            filter_invoice_items_all items db.next_invoice_id hop,
            List.nil_append]
      · intro i' hi'
        rcases List.mem_append.mp hi' with hold | hnew
        · exact Nat.lt_succ_of_lt (h2 i' hold)
        · simp only [List.mem_singleton] at hnew
          subst hnew
          exact Nat.lt_succ_self _
      · intro it hit
        rcases List.mem_append.mp hit with hold | hnew
        · exact Nat.lt_succ_of_lt (h3 it hold)
        · rw [hop it hnew]
          exact Nat.lt_succ_self _
      · rw [List.map_append, List.nodup_append]
        refine ⟨h4, List.nodup_singleton _, ?_⟩
        intro a ha hb
        simp only [List.map_cons, List.map_nil, List.mem_singleton] at hb
        obtain ⟨i0, hi0, rfl⟩ := List.mem_map.mp ha
        exact Nat.ne_of_lt (h2 i0 hi0) hb

theorem dbInvariant_void_reissue (db : DB) (iid : Nat) (clock : Clock)
    (hI : DBInvariant db) : DBInvariant (void_reissue_invoice db iid clock).1 := by
  obtain ⟨h1, h2, h3, h4⟩ := hI
  unfold void_reissue_invoice
  cases hfind : db.invoices.find? (fun i => i.id == iid) with
  | none => exact ⟨h1, h2, h3, h4⟩
  | some invoice =>
    dsimp only
    split
    · exact ⟨h1, h2, h3, h4⟩
    split
    · exact ⟨h1, h2, h3, h4⟩
    split
    · exact ⟨h1, h2, h3, h4⟩
    dsimp only
    have hmem : invoice ∈ db.invoices := List.mem_of_find?_eq_some hfind
    have hop : ∀ it ∈ (db.invoice_items.filter
        (fun it => it.invoice_id == invoice.id)).map (fun item =>
          ({ invoice_id := db.next_invoice_id, container_id := item.container_id,
             quantity := item.quantity,
             price_snapshot :=
               (match latest_price db invoice.client_id item.container_id with
                 | some p => p.price
                 | none => item.price_snapshot),
             total := (item.quantity : ℚ) *
               (match latest_price db invoice.client_id item.container_id with
                 | some p => p.price
                 | none => item.price_snapshot) } : InvoiceItem)),
        it.invoice_id = db.next_invoice_id := by
      intro it hit
      obtain ⟨o, _, rfl⟩ := List.mem_map.mp hit
      rfl
    refine ⟨?_, ?_, ?_, ?_⟩
    · intro i' hi'
      rcases List.mem_append.mp hi' with hmap | hnew
      · obtain ⟨i, hi, rfl⟩ := List.mem_map.mp hmap
        have hfields : (if (i.id == invoice.id) = true
              then { i with status := "cancelled" } else i).id = i.id ∧
            (if (i.id == invoice.id) = true
              then { i with status := "cancelled" } else i).total_amount = i.total_amount ∧
            (if (i.id == invoice.id) = true
              then { i with status := "cancelled" } else i).amount_paid = i.amount_paid := by
          by_cases hc : (i.id == invoice.id) = true
          · rw [if_pos hc]
            exact ⟨rfl, rfl, rfl⟩
          · rw [if_neg hc]
            exact ⟨rfl, rfl, rfl⟩
        obtain ⟨hid, htot, hpaid⟩ := hfields
        have hlt : i.id < db.next_invoice_id := h2 i hi
        have h1' := h1 i hi
        rw [hid, htot, hpaid]
        refine ⟨?_, h1'.2.1, h1'.2.2.1, h1'.2.2.2⟩
        unfold invoice_items_total
        dsimp only
        rw [filter_map_total_append_ne _ _ i.id
          (fun it hit => by rw [hop it hit]; exact Nat.ne_of_gt hlt)]
        exact h1'.1
      · simp only [List.mem_singleton] at hnew
        subst hnew
        refine ⟨?_, le_refl 0, le_max_left 0 _, isCent_zero⟩
        unfold invoice_items_total
        dsimp only
        rw [List.filter_append,
          filter_invoice_items_ne db.invoice_items db.next_invoice_id
            (fun it hit => Nat.ne_of_lt (h3 it hit)),
          filter_invoice_items_all _ db.next_invoice_id hop,
          List.nil_append]
    · intro i' hi'
      rcases List.mem_append.mp hi' with hmap | hnew
      · obtain ⟨i, hi, rfl⟩ := List.mem_map.mp hmap
        have : i.id < db.next_invoice_id := h2 i hi
        by_cases hc : (i.id == invoice.id) = true
        · rw [if_pos hc]
          exact Nat.lt_succ_of_lt this
        · rw [if_neg hc]
          exact Nat.lt_succ_of_lt this
      · simp only [List.mem_singleton] at hnew
        subst hnew
        exact Nat.lt_succ_self _
    · intro it hit
      rcases List.mem_append.mp hit with hold | hnew
      · exact Nat.lt_succ_of_lt (h3 it hold)
      · rw [hop it hnew]
        exact Nat.lt_succ_self _
    · rw [List.map_append, List.map_map, List.nodup_append]
      have hmapeq : db.invoices.map ((fun i => i.id) ∘ (fun i =>
          if (i.id == invoice.id) = true then { i with status := "cancelled" } else i)) =
          db.invoices.map (fun i => i.id) := by
        refine List.map_congr_left (fun i _ => ?_)
        by_cases hc : (i.id == invoice.id) = true
        · simp only [Function.comp_apply, if_pos hc]
        · simp only [Function.comp_apply, if_neg hc]
      rw [hmapeq]
      refine ⟨h4, List.nodup_singleton _, ?_⟩
      intro a ha hb
      simp only [List.map_cons, List.map_nil, List.mem_singleton] at hb
      obtain ⟨i0, hi0, rfl⟩ := List.mem_map.mp ha
      exact Nat.ne_of_lt (h2 i0 hi0) hb

theorem dbInvariant_record_payment (db : DB) (iid : Nat) (a : ℚ) (m : String)
    (ca ua : Option ℚ) (acc : Option String) (now : Int)
    (hI : DBInvariant db) : DBInvariant (record_payment db iid a m ca ua acc now).1 := by
  obtain ⟨h1, h2, h3, h4⟩ := hI
  unfold record_payment
  cases hfind : db.invoices.find? (fun i => i.id == iid) with
  | none => exact ⟨h1, h2, h3, h4⟩
  | some invoice =>
    dsimp only
    split
    · exact ⟨h1, h2, h3, h4⟩
    split
    · exact ⟨h1, h2, h3, h4⟩
    split
    · exact ⟨h1, h2, h3, h4⟩
    split
    · exact ⟨h1, h2, h3, h4⟩
    split
    · exact ⟨h1, h2, h3, h4⟩
    split
    · exact ⟨h1, h2, h3, h4⟩
    rename_i hdraft hpaid hle hexc hmeth x1 x2 x3 x4
    have hmem : invoice ∈ db.invoices := List.mem_of_find?_eq_some hfind
    have h1inv := h1 invoice hmem
    have hcentp : IsCent invoice.amount_paid := h1inv.2.2.2
    have hnp : round_money (invoice.amount_paid + round_money a) =
        invoice.amount_paid + round_money a :=
      round_money_of_isCent (hcentp.add (isCent_round_money a))
    have h0a : 0 < round_money a := not_le.mp hle
    have hrem : round_money a ≤ round_money invoice.total_amount - invoice.amount_paid := by
      have := not_lt.mp hexc
      rwa [round_money_sub_cent _ hcentp] at this
    refine ⟨?_, ?_, ?_, ?_⟩
    · intro i' hi'
      obtain ⟨i, hi, rfl⟩ := List.mem_map.mp hi'
      by_cases hc : (i.id == invoice.id) = true
      · have hieq : i = invoice :=
          List.inj_on_of_nodup_map h4 hi hmem (by simpa using hc)
        subst hieq
        rw [if_pos hc]
        refine ⟨?_, ?_, ?_, ?_⟩
        · exact h1inv.1
        · dsimp only
          rw [hnp]
          have := h1inv.2.1
          linarith
        · dsimp only
          rw [hnp]
          refine le_trans ?_ (le_max_right 0 (round_money i.total_amount))
          linarith
        · dsimp only
          exact isCent_round_money _
      · rw [if_neg hc]
        exact h1 i hi
    · intro i' hi'
      obtain ⟨i, hi, rfl⟩ := List.mem_map.mp hi'
      by_cases hc : (i.id == invoice.id) = true
      · rw [if_pos hc]
        exact h2 i hi
      · rw [if_neg hc]
        exact h2 i hi
    · exact h3
    · rw [List.map_map]
      have hmapeq : db.invoices.map ((fun i => i.id) ∘ (fun i =>
          if (i.id == invoice.id) = true
          then { i with
              amount_paid := round_money (invoice.amount_paid + round_money a),
              status := if round_money invoice.total_amount ≤
                  round_money (invoice.amount_paid + round_money a) then "paid"
                else if 0 < round_money (invoice.amount_paid + round_money a) then "partial"
                else "pending" }
          else i)) = db.invoices.map (fun i => i.id) := by
        refine List.map_congr_left (fun i _ => ?_)
        by_cases hc : (i.id == invoice.id) = true
        · simp only [Function.comp_apply, if_pos hc]
        · simp only [Function.comp_apply, if_neg hc]
      rw [hmapeq]
      exact h4

/-- Every reachable database state satisfies the inductive invariant. -/
theorem dbInvariant_reachable (db : DB) (h : Reachable db) : DBInvariant db := by
  induction h with
  | empty =>
    exact ⟨by simp [DB.empty], by simp [DB.empty], by simp [DB.empty], by simp [DB.empty]⟩
  | set_price db c k p eff now _ ih => exact dbInvariant_set_price db c k p eff now ih
  | add_bill db c lines _ ih => exact dbInvariant_add_bill db c lines ih
  | generate db c clock _ ih => exact dbInvariant_generate db c clock ih
  | confirm db i clock _ ih => exact dbInvariant_confirm db i clock ih
  | cancel db i _ ih => exact dbInvariant_cancel db i ih
  | void_reissue db i clock _ ih => exact dbInvariant_void_reissue db i clock ih
  | pay db i a m ca ua acc now _ ih =>
    exact dbInvariant_record_payment db i a m ca ua acc now ih
  | pay_month db payload _ ih => exact dbInvariant_pay_month db payload ih

/-- C5, amended.  For every reachable database state and every invoice in
it: the sum of the invoice's line-item totals equals its `total_amount`
exactly, and `0 ≤ amount_paid ≤ max 0 (round2 total_amount)` — preserved by
price insertion, trip ingestion, draft generation, confirmation,
cancellation, void+reissue, single payment recording, and monthly payment
allocation (which never mutates state).  The claim's stronger bound
`amount_paid ≤ total_amount` fails (see the counterexample): generation
accumulates totals unrounded while the payment path rounds the remaining
balance. -/
theorem reachable_invoice_invariant (db : DB) (h : Reachable db) :
    ∀ i ∈ db.invoices,
      invoice_items_total db i.id = i.total_amount ∧
      0 ≤ i.amount_paid ∧ i.amount_paid ≤ max 0 (round_money i.total_amount) := by
  intro i hi
  obtain ⟨h1, _, _, _⟩ := dbInvariant_reachable db h
  exact ⟨(h1 i hi).1, (h1 i hi).2.1, (h1 i hi).2.2.1⟩

/-- The single invoice held in scenario A's state `dbA4`. -/
def invA4 : Invoice :=
  { id := 1, client_id := 1, total_amount := 50, amount_paid := 0,
    status := "pending", created_at := 1, created_year := 2025,
    created_month := 3, confirmed_at := some 2, due_date := some 9 }

unseal Rat.add Rat.sub Rat.mul Rat.inv in
/-- Witness for C5: the invariant evaluated on the reachable state of
scenario A (one pending invoice, totals 50/0). -/
theorem reachable_invoice_invariant_witness :
    invoice_items_total dbA4 invA4.id = invA4.total_amount ∧
    0 ≤ invA4.amount_paid ∧
    invA4.amount_paid ≤ max 0 (round_money invA4.total_amount) :=
  reachable_invoice_invariant dbA4
    (.confirm dbA3 1 ⟨2, 2025, 3⟩ (.generate dbA2 1 ⟨1, 2025, 3⟩
      (.add_bill dbA1 1 [⟨1, 5, 0⟩] (.set_price DB.empty 1 1 10 none 0 .empty))))
    invA4 (by decide)
